import Mathlib

/-!
Verification of the loan-order lifecycle engine of the InvenTree loan app
(`src/backend/InvenTree/loan/`): the order/line state machine, the quantity
bookkeeping across shipping, returning and converting-to-sale, and the stock
allocation discipline.

Embedding conventions:
* Quantities are stored by the source as `Decimal(max_digits=15, decimal_places=5)`.
  All operations used by the code are addition, subtraction, `min` and comparisons,
  which commute with scaling by `10^5`, so quantities are embedded exactly as `Int`
  (integers in units of `10^-5`).
* Django model instances become plain structures; a queryset loop becomes a list
  traversal; a mutation of a fetched row becomes an update of the first list entry
  with the matching id (`updateFirst`), and a loop over all rows becomes `List.map`.
* A method decorated with `transaction.atomic` is embedded as a function
  `LoanState → Except String LoanState`: returning `Except.error` models the raised
  `ValidationError` together with the transaction rollback (caller keeps the old
  state, nothing is committed).
* External side effects that no claim mentions (stock tracking entries, events,
  notifications, money totals, report/PDF machinery) are omitted.
-/

deriving instance DecidableEq for Except

namespace Loan

/-- Order statuses, from `loan/status_codes.py` (`LoanOrderStatus`). -/
inductive LoanOrderStatus
  | PENDING
  | APPROVED
  | ISSUED
  | SHIPPED
  | ON_HOLD
  | RETURNED
  | PARTIAL_RETURN
  | CONVERTED_TO_SALE
  | CANCELLED
  | WRITTEN_OFF
  deriving DecidableEq, Repr

/-- Numeric status codes of the source enum. -/
def LoanOrderStatus.val : LoanOrderStatus → Nat
  | .PENDING => 10
  | .APPROVED => 15
  | .ISSUED => 20
  | .SHIPPED => 22
  | .ON_HOLD => 25
  | .RETURNED => 30
  | .PARTIAL_RETURN => 35
  | .CONVERTED_TO_SALE => 40
  | .CANCELLED => 50
  | .WRITTEN_OFF => 60

/-- `LoanOrderStatusGroups.OPEN`. -/
def LoanOrderStatusGroups.OPEN : List LoanOrderStatus :=
  [.PENDING, .APPROVED, .ISSUED, .SHIPPED, .ON_HOLD, .PARTIAL_RETURN]

/-- `LoanOrderStatusGroups.COMPLETE`. -/
def LoanOrderStatusGroups.COMPLETE : List LoanOrderStatus :=
  [.RETURNED, .CONVERTED_TO_SALE]

/-- `LoanOrderStatusGroups.FAILED`. -/
def LoanOrderStatusGroups.FAILED : List LoanOrderStatus :=
  [.CANCELLED, .WRITTEN_OFF]

/-- Line statuses, from `loan/status_codes.py` (`LoanOrderLineStatus`). -/
inductive LoanOrderLineStatus
  | PENDING
  | SHIPPED
  | RETURNED
  | CONVERTED_TO_SALE
  | PARTIALLY_CONVERTED
  | LOST
  | DAMAGED
  deriving DecidableEq, Repr

/-- `LoanOrderLineStatusGroups.OUT_ON_LOAN`. -/
def LoanOrderLineStatusGroups.OUT_ON_LOAN : List LoanOrderLineStatus :=
  [.SHIPPED, .PARTIALLY_CONVERTED]

/-- `LoanOrderLineStatusGroups.COMPLETE`. -/
def LoanOrderLineStatusGroups.COMPLETE : List LoanOrderLineStatus :=
  [.RETURNED, .CONVERTED_TO_SALE]

/-- `LoanOrderLineStatusGroups.PROBLEM`. -/
def LoanOrderLineStatusGroups.PROBLEM : List LoanOrderLineStatus :=
  [.LOST, .DAMAGED]

/-- `ALLOWED_TRANSITIONS` table from `loan/models.py` lines 57-102. -/
def ALLOWED_TRANSITIONS : LoanOrderStatus → List LoanOrderStatus
  | .PENDING => [.APPROVED, .ISSUED, .ON_HOLD, .CANCELLED]
  | .APPROVED => [.ISSUED, .ON_HOLD, .CANCELLED]
  | .ISSUED => [.SHIPPED, .ON_HOLD, .PARTIAL_RETURN, .RETURNED, .CONVERTED_TO_SALE, .WRITTEN_OFF]
  | .SHIPPED => [.ON_HOLD, .PARTIAL_RETURN, .RETURNED, .CONVERTED_TO_SALE, .WRITTEN_OFF]
  | .ON_HOLD => [.PENDING, .APPROVED, .ISSUED, .SHIPPED, .CANCELLED]
  | .PARTIAL_RETURN => [.RETURNED, .CONVERTED_TO_SALE, .WRITTEN_OFF]
  | .RETURNED => [.CONVERTED_TO_SALE]
  | .CONVERTED_TO_SALE => []
  | .CANCELLED => []
  | .WRITTEN_OFF => []

/-- `LoanOrderLineItem` (quantity-relevant fields). -/
structure LoanOrderLineItem where
  id : Nat
  orderId : Nat
  partId : Nat
  quantity : Int
  shipped : Int
  returned : Int
  converted_quantity : Int
  returned_and_sold_quantity : Int
  status : LoanOrderLineStatus
  converted_date : Option Nat
  deriving DecidableEq, Repr

/-- `LoanOrderAllocation` (quantity-relevant fields). -/
structure LoanOrderAllocation where
  id : Nat
  lineId : Nat
  itemId : Nat
  quantity : Int
  returned : Int
  is_converted : Bool
  converted_to_sales_allocation : Option Nat
  deriving DecidableEq, Repr

/-- A stock unit (external `stock.StockItem`): physical quantity plus the build
allocations held against it by other modules, which the loan code only reads. -/
structure StockItem where
  id : Nat
  partId : Nat
  quantity : Int
  serial : Bool
  build_allocation : Int
  deriving DecidableEq, Repr

/-- An external `order.SalesOrderAllocation` created by a loan conversion. -/
structure SalesOrderAllocation where
  id : Nat
  itemId : Nat
  quantity : Int
  deriving DecidableEq, Repr

/-- `LoanOrderLineConversion` audit record (quantity-relevant fields). -/
structure LoanOrderLineConversion where
  loanLineId : Nat
  salesLineId : Nat
  quantity : Int
  is_returned_items : Bool
  deriving DecidableEq, Repr

/-- The transactional state seen by one `LoanOrder` and its related rows.
`lines` may also hold lines of other orders (different `orderId`), to model the
belongs-to-this-order checks.  `auto_complete` is the
`LOANORDER_AUTO_COMPLETE` global setting (backup value `true`). -/
structure LoanState where
  orderId : Nat
  status : LoanOrderStatus
  issue_date : Option Nat
  ship_date : Option Nat
  return_date : Option Nat
  lines : List LoanOrderLineItem
  allocations : List LoanOrderAllocation
  stocks : List StockItem
  salesAllocations : List SalesOrderAllocation
  conversions : List LoanOrderLineConversion
  nextAllocId : Nat
  nextSalesAllocId : Nat
  nextSalesLineId : Nat
  auto_complete : Bool
  deriving DecidableEq, Repr

/-- Replace the first element satisfying `p` by its image under `f`
(a Django row update of a fetched object). -/
def updateFirst : List α → (α → Bool) → (α → α) → List α
  | [], _, _ => []
  | x :: xs, p, f => if p x then f x :: xs else x :: updateFirst xs p f

/-- Sum of `f` over a list. -/
def sumBy (l : List α) (f : α → Int) : Int := (l.map f).sum

/-- `self.lines`: the lines related to this order. -/
def LoanState.ownLines (s : LoanState) : List LoanOrderLineItem :=
  s.lines.filter (fun l => l.orderId == s.orderId)

/-- Fetch a line by primary key. -/
def findLine (s : LoanState) (lid : Nat) : Option LoanOrderLineItem :=
  s.lines.find? (fun l => l.id == lid)

/-- Fetch an allocation by primary key. -/
def findAlloc (s : LoanState) (aid : Nat) : Option LoanOrderAllocation :=
  s.allocations.find? (fun a => a.id == aid)

/-- Fetch a stock item by primary key. -/
def findStock (s : LoanState) (sid : Nat) : Option StockItem :=
  s.stocks.find? (fun st => st.id == sid)

/-- `LoanOrder.line_count`. -/
def LoanState.line_count (s : LoanState) : Nat := s.ownLines.length

/-- `LoanOrder.pending_line_items`: own lines excluded from COMPLETE + PROBLEM. -/
def LoanState.pending_line_count (s : LoanState) : Nat :=
  (s.ownLines.filter (fun l =>
    !((LoanOrderLineStatusGroups.COMPLETE ++ LoanOrderLineStatusGroups.PROBLEM).contains l.status))).length

/-- `LoanOrder.completed_line_items`: own lines inside COMPLETE. -/
def LoanState.completed_line_count (s : LoanState) : Nat :=
  (s.ownLines.filter (fun l => LoanOrderLineStatusGroups.COMPLETE.contains l.status)).length

/-- `LoanOrder.is_open`. -/
def LoanState.is_open (s : LoanState) : Bool :=
  LoanOrderStatusGroups.OPEN.contains s.status

/-- `LoanOrder.can_approve`. -/
def LoanState.can_approve (s : LoanState) : Bool := s.status == .PENDING

/-- `LoanOrder.can_issue`. -/
def LoanState.can_issue (s : LoanState) : Bool :=
  [LoanOrderStatus.PENDING, .APPROVED, .ON_HOLD].contains s.status

/-- `LoanOrder.can_cancel`. -/
def LoanState.can_cancel (s : LoanState) : Bool :=
  [LoanOrderStatus.PENDING, .ON_HOLD].contains s.status

/-- `LoanOrder.can_hold`. -/
def LoanState.can_hold (s : LoanState) : Bool :=
  [LoanOrderStatus.PENDING, .ISSUED, .SHIPPED].contains s.status

/-- `LoanOrder.can_return`: status gate plus at least one shipped line. -/
def LoanState.can_return (s : LoanState) : Bool :=
  [LoanOrderStatus.ISSUED, .SHIPPED, .PARTIAL_RETURN].contains s.status &&
    s.ownLines.any (fun l => decide (0 < l.shipped))

/-- `LoanOrder.can_convert_to_sale` (order-level). -/
def LoanState.can_convert_to_sale_order (s : LoanState) : Bool :=
  [LoanOrderStatus.ISSUED, .SHIPPED, .PARTIAL_RETURN].contains s.status &&
    s.ownLines.any (fun l => decide (0 < l.shipped))

/-- `LoanOrder.can_write_off`. -/
def LoanState.can_write_off (s : LoanState) : Bool :=
  [LoanOrderStatus.ISSUED, .SHIPPED, .PARTIAL_RETURN].contains s.status &&
    s.ownLines.any (fun l => decide (0 < l.shipped))

/-- `LoanOrder._validate_transition`. -/
def LoanState.validate_transition (s : LoanState) (target : LoanOrderStatus) : Bool :=
  (ALLOWED_TRANSITIONS s.status).contains target

/-- `LoanOrder._action_approve`. -/
def LoanState.action_approve (s : LoanState) : LoanState :=
  if s.can_approve then { s with status := .APPROVED } else s

/-- `LoanOrder._action_issue`: resolves to SHIPPED when a line already carries
SHIPPED status, and stamps `issue_date` if unset. -/
def LoanState.action_issue (s : LoanState) (today : Nat) : LoanState :=
  if s.can_issue then
    let has_shipped := s.ownLines.any (fun l => l.status == .SHIPPED)
    { s with
      status := if has_shipped then .SHIPPED else .ISSUED,
      issue_date := some (s.issue_date.getD today) }
  else s

/-- `LoanOrder._action_hold`. -/
def LoanState.action_hold (s : LoanState) : LoanState :=
  if s.can_hold then { s with status := .ON_HOLD } else s

/-- `LoanOrder._action_cancel`. -/
def LoanState.action_cancel (s : LoanState) : LoanState :=
  if s.can_cancel then { s with status := .CANCELLED } else s

/-- The per-line predicate of the `_action_return` cascade: own line, status not in
COMPLETE + PROBLEM, and actually shipped. -/
def returnCascadeLine (s : LoanState) (l : LoanOrderLineItem) : Bool :=
  l.orderId == s.orderId &&
    !((LoanOrderLineStatusGroups.COMPLETE ++ LoanOrderLineStatusGroups.PROBLEM).contains l.status) &&
    decide (0 < l.shipped)

/-- `LoanOrder._action_return`: force-close every shipped, non-complete,
non-problem line, settle its positive allocations, stamp `return_date`. -/
def LoanState.action_return (s : LoanState) (today : Nat) : LoanState :=
  if s.can_return then
    let lines2 := s.lines.map (fun l =>
      if returnCascadeLine s l then
        { l with
          returned := if l.returned < l.shipped then l.shipped else l.returned,
          status := .RETURNED }
      else l)
    let allocs2 := s.allocations.map (fun a =>
      if (match findLine s a.lineId with
          | some l => returnCascadeLine s l
          | none => false) && decide (0 < a.quantity) then
        if 0 < a.quantity - a.returned then
          { a with returned := a.returned + (a.quantity - a.returned), quantity := 0 }
        else a
      else a)
    { s with
      lines := lines2,
      allocations := allocs2,
      status := .RETURNED,
      return_date := some today }
  else s

/-- `LoanOrder._action_convert`. -/
def LoanState.action_convert (s : LoanState) : LoanState :=
  if s.can_convert_to_sale_order then { s with status := .CONVERTED_TO_SALE } else s

/-- `LoanOrder._action_write_off`. -/
def LoanState.action_write_off (s : LoanState) : LoanState :=
  if s.can_write_off then { s with status := .WRITTEN_OFF } else s

/-- `LoanOrder.approve_order`.  `handle_transition` (from the external
`generic.states` module) runs the default action directly when no plugin
intercepts, which is how it is embedded here. -/
def approve_order (s : LoanState) : Except String LoanState :=
  if s.line_count == 0 then .error "Cannot approve a loan order with no line items"
  else if !s.validate_transition .APPROVED then .error "Cannot approve order from current status"
  else .ok s.action_approve

/-- `LoanOrder.issue_order`. -/
def issue_order (today : Nat) (s : LoanState) : Except String LoanState :=
  if s.line_count == 0 then .error "Cannot issue a loan order with no line items"
  else if !s.validate_transition .ISSUED then .error "Cannot issue order from current status"
  else .ok (s.action_issue today)

/-- `LoanOrder.hold_order`. -/
def hold_order (s : LoanState) : Except String LoanState :=
  if !s.validate_transition .ON_HOLD then .error "Cannot hold order from current status"
  else .ok s.action_hold

/-- `LoanOrder.cancel_order`. -/
def cancel_order (s : LoanState) : Except String LoanState :=
  if !s.validate_transition .CANCELLED then .error "Cannot cancel order from current status"
  else .ok s.action_cancel

/-- `LoanOrder.return_order`. -/
def return_order (today : Nat) (s : LoanState) : Except String LoanState :=
  if s.line_count == 0 then .error "Cannot return a loan order with no line items"
  else if !s.validate_transition .RETURNED then .error "Cannot return order from current status"
  else .ok (s.action_return today)

/-- `LoanOrder.convert_to_sale` (order-level status change). -/
def convert_to_sale (s : LoanState) : Except String LoanState :=
  if !s.validate_transition .CONVERTED_TO_SALE then .error "Cannot convert order from current status"
  else .ok s.action_convert

/-- `LoanOrder.write_off_order`. -/
def write_off_order (s : LoanState) : Except String LoanState :=
  if !s.validate_transition .WRITTEN_OFF then .error "Cannot write off order from current status"
  else .ok s.action_write_off

/-- Modelled from the spec: the stock module (not among these sources) exposes the
per-unit allocation totals; per spec section 2 a unit's claims are
builds + sales + loans, where a loan allocation's claim is its outstanding
`quantity`. -/
def loan_allocation_count (s : LoanState) (itemId : Nat) : Int :=
  sumBy s.allocations (fun a => if a.itemId == itemId then a.quantity else 0)

/-- Modelled from the spec: sales-order claims held against a stock unit. -/
def sales_order_allocation_count (s : LoanState) (itemId : Nat) : Int :=
  sumBy s.salesAllocations (fun a => if a.itemId == itemId then a.quantity else 0)

/-- Modelled from the spec: total claims of all allocation types against a unit
(builds + sales + loans). -/
def total_allocation_claims (s : LoanState) (st : StockItem) : Int :=
  st.build_allocation + sales_order_allocation_count s st.id + loan_allocation_count s st.id

/-- Modelled from the spec: `StockItem.unallocated_quantity()` = physical quantity
minus total claims. -/
def unallocated_quantity (s : LoanState) (st : StockItem) : Int :=
  st.quantity - total_allocation_claims s st

/-- `LoanOrderAllocation.clean()` for a new (not yet saved) allocation: the part
mismatch branch of the source compares `line.part` against its own
descendant set with `include_self=True`, so it can never fail and is embedded
vacuously; the remaining checks are translated one for one. -/
def allocation_clean_ok (s : LoanState) (a : LoanOrderAllocation) : Bool :=
  match findStock s a.itemId, findLine s a.lineId with
  | some item, some _line =>
    let total_allocation :=
      item.build_allocation + sales_order_allocation_count s a.itemId +
        loan_allocation_count s a.itemId + a.quantity
    !(item.quantity < a.quantity) &&
      !(item.quantity < total_allocation) &&
      !(a.quantity ≤ 0) &&
      !(item.serial && a.quantity != 1)
  | _, _ => false

/-- `LoanOrderLineItem.remaining_on_loan`. -/
def LoanOrderLineItem.remaining_on_loan (l : LoanOrderLineItem) : Int :=
  l.shipped - l.returned - l.converted_quantity

/-- `LoanOrderLineItem.available_to_convert` (alias of `remaining_on_loan`). -/
def LoanOrderLineItem.available_to_convert (l : LoanOrderLineItem) : Int :=
  l.remaining_on_loan

/-- `LoanOrderLineItem.available_returned_to_sell`. -/
def LoanOrderLineItem.available_returned_to_sell (l : LoanOrderLineItem) : Int :=
  l.returned - l.returned_and_sold_quantity

/-- `LoanOrderLineItem.is_fully_converted`. -/
def LoanOrderLineItem.is_fully_converted (l : LoanOrderLineItem) : Bool :=
  l.shipped ≤ l.converted_quantity

/-- `LoanOrderLineItem.is_partially_converted`. -/
def LoanOrderLineItem.is_partially_converted (l : LoanOrderLineItem) : Bool :=
  0 < l.converted_quantity && l.converted_quantity < l.shipped

/-- `LoanOrderLineItem.allocated_quantity`: total allocation quantity of a line. -/
def allocated_quantity (s : LoanState) (lid : Nat) : Int :=
  sumBy s.allocations (fun a => if a.lineId == lid then a.quantity else 0)

/-- `LoanOrderLineItem.can_convert_to_sale(quantity)` with an explicit quantity. -/
def can_convert_to_sale (s : LoanState) (l : LoanOrderLineItem) (q : Int) : Bool :=
  if l.remaining_on_loan ≤ 0 then false
  else if q ≤ 0 then false
  else if l.remaining_on_loan < q then false
  else if !([LoanOrderStatus.ISSUED, .SHIPPED, .PARTIAL_RETURN].contains s.status) then false
  else true

/-- `LoanOrderLineItem.can_sell_returned_items(quantity)` with an explicit quantity. -/
def can_sell_returned_items (l : LoanOrderLineItem) (q : Int) : Bool :=
  if l.available_returned_to_sell ≤ 0 then false
  else if q ≤ 0 then false
  else if l.available_returned_to_sell < q then false
  else true

/-- The allocation-transfer loop of `_create_or_update_sales_order` (non-returned
branch): consume candidate loan allocations oldest-first until the requested
quantity is covered, creating a sales allocation from the same stock item and
marking each consumed loan allocation as converted. -/
def consumeAllocs (salesLineId : Nat) : List Nat → Int → LoanState → LoanState
  | [], _, s => s
  | aid :: rest, remaining, s =>
    if remaining ≤ 0 then s
    else
      match findAlloc s aid with
      | none => consumeAllocs salesLineId rest remaining s
      | some a =>
        let available := a.quantity - a.returned
        let allocQ := min available remaining
        if 0 < allocQ then
          let soId := s.nextSalesAllocId
          let s2 : LoanState :=
            { s with
              salesAllocations := s.salesAllocations ++ [⟨soId, a.itemId, allocQ⟩],
              nextSalesAllocId := soId + 1,
              allocations := updateFirst s.allocations (fun b => b.id == aid)
                (fun b => { b with is_converted := true, converted_to_sales_allocation := some soId }) }
          consumeAllocs salesLineId rest (remaining - allocQ) s2
        else consumeAllocs salesLineId rest remaining s

/-- `LoanOrderLineItem._create_or_update_sales_order`: sales-order and
sales-line creation is external (order module); here it yields a fresh sales
line id; for on-loan items the allocation transfer runs over the loan
allocations with `quantity > returned`. -/
def create_or_update_sales_order (l : LoanOrderLineItem) (q : Int)
    (is_returned_items : Bool) (s : LoanState) : LoanState × Nat :=
  let salesLineId := s.nextSalesLineId
  let s1 : LoanState := { s with nextSalesLineId := salesLineId + 1 }
  if is_returned_items then (s1, salesLineId)
  else
    let candidates :=
      (s1.allocations.filter (fun a => a.lineId == l.id && a.returned < a.quantity)).map (fun a => a.id)
    (consumeAllocs salesLineId candidates q s1, salesLineId)

/-- `LoanOrderLineConversion.clean()`. -/
def conversion_clean_ok (s : LoanState) (c : LoanOrderLineConversion) : Bool :=
  match findLine s c.loanLineId with
  | none => true
  | some l =>
    if c.is_returned_items then
      !(l.returned - l.returned_and_sold_quantity < c.quantity)
    else
      !(l.shipped - l.returned - l.converted_quantity < c.quantity)

/-- The line update of a conversion: bump `converted_quantity`, stamp
`converted_date` if unset, recompute the status. -/
def convertLineUpdate (q : Int) (today : Nat) (b : LoanOrderLineItem) : LoanOrderLineItem :=
  let b2 := { b with
    converted_quantity := b.converted_quantity + q,
    converted_date := some (b.converted_date.getD today) }
  if b2.is_fully_converted then { b2 with status := .CONVERTED_TO_SALE }
  else if b2.is_partially_converted then { b2 with status := .PARTIALLY_CONVERTED }
  else b2

/-- The state mutation of a successful `convert_to_sales_order`: sales-order
creation with allocation transfer, the appended conversion record, and the
line update with status recomputation. -/
def convertApply (lid : Nat) (q : Int) (today : Nat) (l : LoanOrderLineItem)
    (s : LoanState) : LoanState :=
  let p := create_or_update_sales_order l q false s
  let conv : LoanOrderLineConversion := ⟨lid, p.2, q, false⟩
  let s2 : LoanState := { p.1 with conversions := p.1.conversions ++ [conv] }
  { s2 with lines := updateFirst s2.lines (fun b => b.id == lid) (convertLineUpdate q today) }

/-- `LoanOrderLineItem.convert_to_sales_order` (`transaction.atomic`). -/
def convert_to_sales_order (lid : Nat) (q : Int) (today : Nat) (s : LoanState) :
    Except String LoanState :=
  match findLine s lid with
  | none => .error "Line item not found"
  | some l =>
    if !can_convert_to_sale s l q then .error "Cannot convert this quantity to sale"
    else
      let p := create_or_update_sales_order l q false s
      if !conversion_clean_ok p.1 ⟨lid, p.2, q, false⟩ then
        .error "Conversion quantity cannot exceed quantity still on loan"
      else .ok (convertApply lid q today l s)

/-- `LoanOrderLineItem.sell_returned_items` (`transaction.atomic`): no allocation
transfer, flags the record as returned items, bumps
`returned_and_sold_quantity`. -/
def sellLineUpdate (q : Int) (b : LoanOrderLineItem) : LoanOrderLineItem :=
  { b with returned_and_sold_quantity := b.returned_and_sold_quantity + q }

def sellApply (lid : Nat) (q : Int) (l : LoanOrderLineItem) (s : LoanState) : LoanState :=
  let p := create_or_update_sales_order l q true s
  let conv : LoanOrderLineConversion := ⟨lid, p.2, q, true⟩
  let s2 : LoanState := { p.1 with conversions := p.1.conversions ++ [conv] }
  { s2 with lines := updateFirst s2.lines (fun b => b.id == lid) (sellLineUpdate q) }

/-- `LoanOrderLineItem.sell_returned_items`, validation part. -/
def sell_returned_items (lid : Nat) (q : Int) (s : LoanState) :
    Except String LoanState :=
  match findLine s lid with
  | none => .error "Line item not found"
  | some l =>
    if !can_sell_returned_items l q then .error "Cannot sell this quantity of returned items"
    else
      let p := create_or_update_sales_order l q true s
      if !conversion_clean_ok p.1 ⟨lid, p.2, q, true⟩ then
        .error "Conversion quantity cannot exceed returned quantity not yet sold"
      else .ok (sellApply lid q l s)

/-- One item of a `ship_line_items` batch. -/
structure ShipItem where
  lineId : Nat
  stockId : Nat
  quantity : Int
  deriving DecidableEq, Repr

/-- The `(line, stock_item)` key of the allocation get-or-create. -/
def shipAllocPred (it : ShipItem) (a : LoanOrderAllocation) : Bool :=
  a.lineId == it.lineId && a.itemId == it.stockId

/-- The line update of one ship iteration: `shipped += quantity` and status
SHIPPED once `shipped >= quantity`. -/
def shipLineUpdate (it : ShipItem) (l : LoanOrderLineItem) : LoanOrderLineItem :=
  let l2 := { l with shipped := l.shipped + it.quantity }
  if l2.quantity ≤ l2.shipped then { l2 with status := .SHIPPED } else l2

/-- The state mutation of one successful `ship_line_items` loop iteration:
allocation get-or-create followed by the line update. -/
def shipApply (s : LoanState) (it : ShipItem) : LoanState :=
  let s1 : LoanState :=
    match s.allocations.find? (shipAllocPred it) with
    | some _ =>
      let allocs2 := updateFirst s.allocations (shipAllocPred it)
        (fun a => { a with quantity := a.quantity + it.quantity })
      { s with allocations := allocs2 }
    | none =>
      { s with
        allocations := s.allocations ++
          [⟨s.nextAllocId, it.lineId, it.stockId, it.quantity, 0, false, none⟩],
        nextAllocId := s.nextAllocId + 1 }
  { s1 with lines := updateFirst s1.lines (fun l => l.id == it.lineId) (shipLineUpdate it) }

/-- The per-item body of the `ship_line_items` loop: validation checks in source
order, then the mutation. -/
def shipOne (s : LoanState) (it : ShipItem) : Except String LoanState :=
  match findLine s it.lineId with
  | none => .error "Line item not found"
  | some line =>
    if line.orderId != s.orderId then .error "Line item does not belong to this order"
    else if it.quantity ≤ 0 then .error "Quantity must be greater than zero"
    else if line.quantity - line.shipped < it.quantity then
      .error "Shipping quantity exceeds remaining quantity"
    else
      match findStock s it.stockId with
      | none => .error "Stock item not found"
      | some stock =>
        if unallocated_quantity s stock < it.quantity then
          .error "Requested quantity exceeds available stock"
        else .ok (shipApply s it)

/-- The `for item in items` loop of `ship_line_items`. -/
def shipLoop : List ShipItem → LoanState → Except String LoanState
  | [], s => .ok s
  | it :: rest, s =>
    match shipOne s it with
    | .error e => .error e
    | .ok s1 => shipLoop rest s1

/-- `LoanOrder.ship_line_items` (`transaction.atomic`): status gate with
auto-issue, the item loop, then the ISSUED-to-SHIPPED auto-transition. -/
def ship_line_items (items : List ShipItem) (today : Nat) (s : LoanState) :
    Except String LoanState :=
  match (if [LoanOrderStatus.ISSUED, .SHIPPED, .PARTIAL_RETURN].contains s.status then .ok s
         else if [LoanOrderStatus.PENDING, .APPROVED].contains s.status then issue_order today s
         else .error "Cannot ship items for this loan status" : Except String LoanState) with
  | .error e => .error e
  | .ok s1 =>
    match shipLoop items s1 with
    | .error e => .error e
    | .ok s2 =>
      if s2.status == .ISSUED && s2.ownLines.any (fun l => l.status == .SHIPPED) then
        .ok { s2 with status := .SHIPPED, ship_date := some (s2.ship_date.getD today) }
      else .ok s2

/-- One item of a `return_line_items` batch (stock relocation details are
external and omitted). -/
structure ReturnItem where
  allocId : Nat
  quantity : Int
  deriving DecidableEq, Repr

/-- The allocation update of one return iteration. -/
def returnAllocUpdate (it : ReturnItem) (b : LoanOrderAllocation) : LoanOrderAllocation :=
  { b with quantity := b.quantity - it.quantity, returned := b.returned + it.quantity }

/-- The line update of one return iteration: `returned += quantity` and status
RETURNED once `returned >= quantity`. -/
def returnLineUpdate (it : ReturnItem) (l : LoanOrderLineItem) : LoanOrderLineItem :=
  let l2 := { l with returned := l.returned + it.quantity }
  if l2.quantity ≤ l2.returned then { l2 with status := .RETURNED } else l2

/-- The state mutation of one successful `return_line_items` loop iteration:
allocation decrement plus line update (`a` is the fetched allocation). -/
def returnApply (s : LoanState) (it : ReturnItem) (a : LoanOrderAllocation) : LoanState :=
  let allocs2 := updateFirst s.allocations (fun b => b.id == it.allocId) (returnAllocUpdate it)
  let s1 : LoanState := { s with allocations := allocs2 }
  { s1 with lines := updateFirst s1.lines (fun l => l.id == a.lineId) (returnLineUpdate it) }

/-- The per-item body of the `return_line_items` loop. -/
def returnOne (s : LoanState) (it : ReturnItem) : Except String LoanState :=
  match findAlloc s it.allocId with
  | none => .error "Allocation not found"
  | some a =>
    match findLine s a.lineId with
    | none => .error "Allocation line not found"
    | some line =>
      if line.orderId != s.orderId then .error "Allocation does not belong to this order"
      else if it.quantity ≤ 0 then .error "Quantity must be greater than zero"
      else if a.quantity < it.quantity then .error "Return quantity exceeds allocated quantity"
      else .ok (returnApply s it a)

/-- The `for item in items` loop of `return_line_items`. -/
def returnLoop : List ReturnItem → LoanState → Except String LoanState
  | [], s => .ok s
  | it :: rest, s =>
    match returnOne s it with
    | .error e => .error e
    | .ok s1 => returnLoop rest s1

/-- `LoanOrder.return_line_items` (`transaction.atomic`): open-status gate, the
item loop, then auto-complete or PARTIAL_RETURN derivation. -/
def return_line_items (items : List ReturnItem) (today : Nat) (s : LoanState) :
    Except String LoanState :=
  if !s.is_open then .error "Cannot return items for a closed loan"
  else
    match returnLoop items s with
    | .error e => .error e
    | .ok s1 =>
      if s1.pending_line_count == 0 && s1.is_open then
        if s1.auto_complete then return_order today s1 else .ok s1
      else if 0 < s1.completed_line_count && 0 < s1.pending_line_count then
        if [LoanOrderStatus.ISSUED, .SHIPPED].contains s1.status then
          .ok { s1 with status := .PARTIAL_RETURN }
        else .ok s1
      else .ok s1

/-- One item of the batch-conversion serializer. -/
structure ConvertItem where
  lineId : Nat
  quantity : Int
  deriving DecidableEq, Repr

/-- The per-item checks of `LoanOrderConvertItemsSerializer.validate_items`,
all evaluated against the pre-batch state. -/
def validateConvertItemsLoop (s : LoanState) : List ConvertItem → Except String Unit
  | [] => .ok ()
  | it :: rest =>
    match s.lines.find? (fun l => l.id == it.lineId && l.orderId == s.orderId) with
    | none => .error "Line item not found in this loan order"
    | some l =>
      if it.quantity ≤ 0 then .error "Quantity must be greater than zero"
      else if l.available_to_convert < it.quantity then .error "Quantity not available"
      else validateConvertItemsLoop s rest

/-- `LoanOrderConvertItemsSerializer.validate_items`. -/
def validate_items (s : LoanState) (items : List ConvertItem) : Except String Unit :=
  if items.isEmpty then .error "At least one item must be provided"
  else validateConvertItemsLoop s items

/-- The loop of `LoanOrderConvertItemsSerializer.save`: each
`convert_to_sales_order` call is individually `transaction.atomic` and commits
on success, and neither the serializer `save` nor the API view opens an
enclosing transaction, so a failure at item k keeps the state already committed
by items 1..k-1.  Returns that committed state together with the error, if any. -/
def convertItemsSaveLoop (today : Nat) : List ConvertItem → LoanState →
    LoanState × Option String
  | [], s => (s, none)
  | it :: rest, s =>
    match convert_to_sales_order it.lineId it.quantity today s with
    | .ok s1 => convertItemsSaveLoop today rest s1
    | .error e => (s, some e)

/-- The batch-convert endpoint: `is_valid(raise_exception=True)` followed by
`serializer.save()`. -/
def convert_items_batch (items : List ConvertItem) (today : Nat) (s : LoanState) :
    LoanState × Option String :=
  match validate_items s items with
  | .error e => (s, some e)
  | .ok _ => convertItemsSaveLoop today items s

/-- The core operations named by the quantity-invariant claim. -/
inductive CoreOp
  | ship (items : List ShipItem) (today : Nat)
  | returnItems (items : List ReturnItem) (today : Nat)
  | returnOrder (today : Nat)
  | convertLine (lineId : Nat) (quantity : Int) (today : Nat)
  | sellReturned (lineId : Nat) (quantity : Int)
  deriving Repr

/-- Dispatch a core operation. -/
def applyCoreOp : CoreOp → LoanState → Except String LoanState
  | .ship items today, s => ship_line_items items today s
  | .returnItems items today, s => return_line_items items today s
  | .returnOrder today, s => return_order today s
  | .convertLine lid q today, s => convert_to_sales_order lid q today s
  | .sellReturned lid q, s => sell_returned_items lid q s

/-- The seven named status actions of the order state machine. -/
inductive OrderAction
  | approveOrder
  | issueOrder
  | holdOrder
  | cancelOrder
  | returnOrderAction
  | convertToSale
  | writeOffOrder
  deriving DecidableEq, Repr

/-- Dispatch a status action. -/
def applyOrderAction (a : OrderAction) (today : Nat) (s : LoanState) :
    Except String LoanState :=
  match a with
  | .approveOrder => approve_order s
  | .issueOrder => issue_order today s
  | .holdOrder => hold_order s
  | .cancelOrder => cancel_order s
  | .returnOrderAction => return_order today s
  | .convertToSale => convert_to_sale s
  | .writeOffOrder => write_off_order s

/-- The quantity invariants of a line item (spec section 3 and section 8). -/
def LineInv (l : LoanOrderLineItem) : Prop :=
  0 ≤ l.shipped ∧ l.shipped ≤ l.quantity ∧
    0 ≤ l.returned ∧ l.returned ≤ l.shipped ∧
    0 ≤ l.converted_quantity ∧ l.converted_quantity ≤ l.shipped ∧
    0 ≤ l.returned_and_sold_quantity ∧ l.returned_and_sold_quantity ≤ l.returned

instance (l : LoanOrderLineItem) : Decidable (LineInv l) := by
  unfold LineInv; infer_instance

/-- Non-negativity of an allocation's running totals. -/
def AllocInv (a : LoanOrderAllocation) : Prop := 0 ≤ a.quantity ∧ 0 ≤ a.returned

instance (a : LoanOrderAllocation) : Decidable (AllocInv a) := by
  unfold AllocInv; infer_instance

/-- State well-formedness: line and allocation quantity invariants, the link
between outstanding allocation totals and a line's shipped-minus-returned
balance while the order is open (established by `ship_line_items`, which
raises `shipped` and the allocation quantity together), and uniqueness of
line primary keys. -/
def StInv (s : LoanState) : Prop :=
  (∀ l ∈ s.lines, LineInv l) ∧
    (∀ a ∈ s.allocations, AllocInv a) ∧
    (s.is_open = true →
      ∀ l ∈ s.lines, l.orderId = s.orderId → allocated_quantity s l.id ≤ l.shipped - l.returned) ∧
    (s.lines.map (fun l => l.id)).Nodup

instance (s : LoanState) : Decidable (StInv s) := by
  unfold StInv; infer_instance

/-- Stock-claims invariant (spec section 8): the sum of all active allocation
quantities against each unit stays within its physical quantity; stock
primary keys are unique. -/
def ClaimsInv (s : LoanState) : Prop :=
  (s.stocks.map (fun st => st.id)).Nodup ∧
    ∀ st ∈ s.stocks, total_allocation_claims s st ≤ st.quantity

instance (s : LoanState) : Decidable (ClaimsInv s) := by
  unfold ClaimsInv; infer_instance

/-! ### Generic list lemmas for `updateFirst` and `sumBy` -/

theorem sumBy_nil (f : α → Int) : sumBy [] f = 0 := rfl

theorem sumBy_cons (x : α) (l : List α) (f : α → Int) :
    sumBy (x :: l) f = f x + sumBy l f := by
  simp [sumBy]

theorem sumBy_append_singleton (l : List α) (x : α) (f : α → Int) :
    sumBy (l ++ [x]) f = sumBy l f + f x := by
  simp [sumBy]

theorem sumBy_le_sumBy {l : List α} {f g : α → Int} (h : ∀ a ∈ l, f a ≤ g a) :
    sumBy l f ≤ sumBy l g := by
  induction l with
  | nil => simp [sumBy]
  | cons x xs ih =>
    rw [sumBy_cons, sumBy_cons]
    exact add_le_add (h x (by simp)) (ih (fun a ha => h a (by simp [ha])))

theorem sumBy_nonneg {l : List α} {g : α → Int} (hpos : ∀ a ∈ l, 0 ≤ g a) :
    0 ≤ sumBy l g := by
  induction l with
  | nil => simp [sumBy]
  | cons x xs ih =>
    rw [sumBy_cons]
    exact add_nonneg (hpos x (by simp)) (ih (fun b hb => hpos b (by simp [hb])))

theorem le_sumBy_of_mem {l : List α} {g : α → Int} (hpos : ∀ a ∈ l, 0 ≤ g a)
    {a : α} (ha : a ∈ l) : g a ≤ sumBy l g := by
  induction l with
  | nil => cases ha
  | cons x xs ih =>
    rw [sumBy_cons]
    rcases List.mem_cons.mp ha with h | h
    · subst h
      have : 0 ≤ sumBy xs g := sumBy_nonneg (fun b hb => hpos b (by simp [hb]))
      linarith
    · have hx : 0 ≤ g x := hpos x (by simp)
      have := ih (fun b hb => hpos b (by simp [hb])) h
      linarith

/-- Decomposition of a successful `find?`: the list splits around the first
match, and `updateFirst` rewrites exactly that element. -/
theorem find?_updateFirst_decomp {l : List α} {p : α → Bool} {a₀ : α}
    (h : l.find? p = some a₀) (f : α → α) :
    ∃ l1 l2, l = l1 ++ a₀ :: l2 ∧ (∀ x ∈ l1, p x = false) ∧
      updateFirst l p f = l1 ++ f a₀ :: l2 := by
  induction l with
  | nil => simp [List.find?] at h
  | cons x xs ih =>
    by_cases hp : p x = true
    · refine ⟨[], xs, ?_, by simp, ?_⟩
      · have : some x = some a₀ := by rw [← h]; simp [List.find?, hp]
        simp at this; simp [this]
      · have : some x = some a₀ := by rw [← h]; simp [List.find?, hp]
        simp at this; subst this; simp [updateFirst, hp]
    · have hfx : xs.find? p = some a₀ := by
        rw [← h]; simp [List.find?, hp]
      obtain ⟨l1, l2, heq, hfalse, hupd⟩ := ih hfx
      refine ⟨x :: l1, l2, by simp [heq], ?_, ?_⟩
      · intro y hy
        rcases List.mem_cons.mp hy with h1 | h1
        · subst h1; exact Bool.eq_false_iff.mpr hp
        · exact hfalse y h1
      · simp [updateFirst, hp, hupd]

theorem updateFirst_of_find?_none {l : List α} {p : α → Bool}
    (h : l.find? p = none) (f : α → α) : updateFirst l p f = l := by
  induction l with
  | nil => rfl
  | cons x xs ih =>
    rw [List.find?_cons] at h
    by_cases hp : p x = true
    · simp [hp] at h
    · simp [updateFirst, hp, ih (by simpa [hp] using h)]

theorem map_updateFirst {l : List α} {p : α → Bool} {f : α → α} (g : α → β)
    (hg : ∀ a, p a = true → g (f a) = g a) :
    (updateFirst l p f).map g = l.map g := by
  induction l with
  | nil => rfl
  | cons x xs ih =>
    by_cases hp : p x = true
    · simp [updateFirst, hp, hg x hp]
    · simp [updateFirst, hp, ih]

theorem sumBy_updateFirst {l : List α} {p : α → Bool} {a₀ : α}
    (h : l.find? p = some a₀) (f : α → α) (g : α → Int) :
    sumBy (updateFirst l p f) g = sumBy l g + (g (f a₀) - g a₀) := by
  obtain ⟨l1, l2, heq, _, hupd⟩ := find?_updateFirst_decomp h f
  subst heq
  rw [hupd]
  simp [sumBy]
  ring

/-! ### Frame and transfer lemmas -/

theorem is_open_of_status {s : LoanState} {st : LoanOrderStatus}
    (h : s.status = st) (hopen : st ∈ LoanOrderStatusGroups.OPEN) : s.is_open = true := by
  unfold LoanState.is_open
  rw [h]
  fin_cases hopen <;> decide

theorem StInv_transfer {s s' : LoanState} (h : StInv s)
    (ho : s'.orderId = s.orderId) (hl : s'.lines = s.lines)
    (ha : s'.allocations = s.allocations)
    (hopen : s'.is_open = true → s.is_open = true) : StInv s' := by
  obtain ⟨h1, h2, h3, h4⟩ := h
  refine ⟨?_, ?_, ?_, ?_⟩
  · rw [hl]; exact h1
  · rw [ha]; exact h2
  · intro hop l hlmem hlo
    rw [hl] at hlmem
    rw [ho] at hlo
    have hx := h3 (hopen hop) l hlmem hlo
    unfold allocated_quantity at hx ⊢
    rw [ha]
    exact hx
  · rw [hl]; exact h4

theorem ClaimsInv_transfer {s s' : LoanState} (h : ClaimsInv s)
    (ha : s'.allocations = s.allocations) (hst : s'.stocks = s.stocks)
    (hsa : s'.salesAllocations = s.salesAllocations) : ClaimsInv s' := by
  obtain ⟨h0, h1⟩ := h
  constructor
  · rw [hst]; exact h0
  · intro st hstm
    rw [hst] at hstm
    have hx := h1 st hstm
    unfold total_allocation_claims sales_order_allocation_count loan_allocation_count at hx ⊢
    rw [ha, hsa]
    exact hx

theorem can_approve_iff (s : LoanState) :
    s.can_approve = true ↔ s.status = .PENDING := by
  cases hs : s.status <;> (unfold LoanState.can_approve; rw [hs]) <;> decide

theorem can_issue_iff (s : LoanState) :
    s.can_issue = true ↔
      (s.status = .PENDING ∨ s.status = .APPROVED ∨ s.status = .ON_HOLD) := by
  cases hs : s.status <;> (unfold LoanState.can_issue; rw [hs]) <;> decide

theorem can_cancel_iff (s : LoanState) :
    s.can_cancel = true ↔ (s.status = .PENDING ∨ s.status = .ON_HOLD) := by
  cases hs : s.status <;> (unfold LoanState.can_cancel; rw [hs]) <;> decide

theorem can_hold_iff (s : LoanState) :
    s.can_hold = true ↔
      (s.status = .PENDING ∨ s.status = .ISSUED ∨ s.status = .SHIPPED) := by
  cases hs : s.status <;> (unfold LoanState.can_hold; rw [hs]) <;> decide

theorem can_return_status {s : LoanState} (h : s.can_return = true) :
    s.status = .ISSUED ∨ s.status = .SHIPPED ∨ s.status = .PARTIAL_RETURN := by
  unfold LoanState.can_return at h
  rw [Bool.and_eq_true] at h
  cases hs : s.status <;> rw [hs] at h <;> simp_all

theorem sumBy_map (l : List α) (g : α → β) (f : β → Int) :
    sumBy (l.map g) f = sumBy l (fun x => f (g x)) := by
  simp [sumBy, List.map_map]
  rfl

/-! ### Invariant preservation by the status actions -/

theorem action_approve_stinv {s : LoanState} (h : StInv s) : StInv s.action_approve := by
  unfold LoanState.action_approve
  split
  case isTrue hg =>
    exact StInv_transfer h rfl rfl rfl
      (fun _ => is_open_of_status ((can_approve_iff s).mp hg) (by decide))
  case isFalse => exact h

theorem action_issue_stinv {s : LoanState} (today : Nat) (h : StInv s) :
    StInv (s.action_issue today) := by
  unfold LoanState.action_issue
  split
  case isTrue hg =>
    rcases (can_issue_iff s).mp hg with hst | hst | hst <;>
      exact StInv_transfer h rfl rfl rfl (fun _ => is_open_of_status hst (by decide))
  case isFalse => exact h

theorem action_hold_stinv {s : LoanState} (h : StInv s) : StInv s.action_hold := by
  unfold LoanState.action_hold
  split
  case isTrue hg =>
    rcases (can_hold_iff s).mp hg with hst | hst | hst <;>
      exact StInv_transfer h rfl rfl rfl (fun _ => is_open_of_status hst (by decide))
  case isFalse => exact h

theorem action_cancel_stinv {s : LoanState} (h : StInv s) : StInv s.action_cancel := by
  unfold LoanState.action_cancel
  split
  case isTrue hg =>
    rcases (can_cancel_iff s).mp hg with hst | hst <;>
      exact StInv_transfer h rfl rfl rfl (fun _ => is_open_of_status hst (by decide))
  case isFalse => exact h

theorem action_convert_stinv {s : LoanState} (h : StInv s) : StInv s.action_convert := by
  unfold LoanState.action_convert
  split
  case isTrue hg =>
    have hst := hg
    unfold LoanState.can_convert_to_sale_order at hst
    rw [Bool.and_eq_true] at hst
    have : s.status = .ISSUED ∨ s.status = .SHIPPED ∨ s.status = .PARTIAL_RETURN := by
      cases hs : s.status <;> rw [hs] at hst <;> simp_all
    rcases this with hst2 | hst2 | hst2 <;>
      exact StInv_transfer h rfl rfl rfl (fun _ => is_open_of_status hst2 (by decide))
  case isFalse => exact h

theorem action_write_off_stinv {s : LoanState} (h : StInv s) : StInv s.action_write_off := by
  unfold LoanState.action_write_off
  split
  case isTrue hg =>
    have hst := hg
    unfold LoanState.can_write_off at hst
    rw [Bool.and_eq_true] at hst
    have : s.status = .ISSUED ∨ s.status = .SHIPPED ∨ s.status = .PARTIAL_RETURN := by
      cases hs : s.status <;> rw [hs] at hst <;> simp_all
    rcases this with hst2 | hst2 | hst2 <;>
      exact StInv_transfer h rfl rfl rfl (fun _ => is_open_of_status hst2 (by decide))
  case isFalse => exact h

theorem action_return_stinv {s : LoanState} (today : Nat) (h : StInv s) :
    StInv (s.action_return today) := by
  unfold LoanState.action_return
  split
  case isFalse => exact h
  case isTrue hg =>
  obtain ⟨h1, h2, _h3, h4⟩ := h
  refine ⟨?_, ?_, ?_, ?_⟩
  · intro l' hl'
    simp only [List.mem_map] at hl'
    obtain ⟨l, hl, rfl⟩ := hl'
    obtain ⟨c1, c2, c3, c4, c5, c6, c7, c8⟩ := h1 l hl
    by_cases hc : returnCascadeLine s l = true
    · simp only [hc, if_true]
      by_cases hlt : l.returned < l.shipped
      · simp only [hlt, if_true]
        exact ⟨c1, c2, c1, le_refl _, c5, c6, c7, by dsimp; linarith⟩
      · simp only [hlt, if_false]
        exact ⟨c1, c2, c3, c4, c5, c6, c7, c8⟩
    · simp only [Bool.not_eq_true] at hc
      simp only [hc, Bool.false_eq_true, if_false]
      exact ⟨c1, c2, c3, c4, c5, c6, c7, c8⟩
  · intro a' ha'
    simp only [List.mem_map] at ha'
    obtain ⟨a, ha, rfl⟩ := ha'
    obtain ⟨d1, d2⟩ := h2 a ha
    by_cases hc : ((match findLine s a.lineId with
        | some l => returnCascadeLine s l
        | none => false) && decide (0 < a.quantity)) = true
    · simp only [hc, if_true]
      rw [Bool.and_eq_true] at hc
      have hq : 0 < a.quantity := of_decide_eq_true hc.2
      by_cases hrem : 0 < a.quantity - a.returned
      · simp only [hrem, if_true]
        constructor
        · dsimp; omega
        · dsimp; omega
      · simp only [hrem, if_false]
        exact ⟨d1, d2⟩
    · simp only [Bool.not_eq_true] at hc
      simp only [hc, Bool.false_eq_true, if_false]
      exact ⟨d1, d2⟩
  · intro hop
    exfalso
    unfold LoanState.is_open at hop
    simp only [LoanOrderStatusGroups.OPEN] at hop
    exact absurd hop (by decide)
  · have hid : ∀ l : LoanOrderLineItem,
        (if returnCascadeLine s l then
          { l with
            returned := if l.returned < l.shipped then l.shipped else l.returned,
            status := LoanOrderLineStatus.RETURNED } else l).id = l.id := by
      intro l
      by_cases hc : returnCascadeLine s l = true
      · simp [hc]
      · simp only [Bool.not_eq_true] at hc
        simp [hc]
    rw [List.map_map]
    have hmap := List.map_congr_left (l := s.lines)
      (f := (fun l : LoanOrderLineItem => l.id) ∘ (fun l =>
        if returnCascadeLine s l then
          { l with
            returned := if l.returned < l.shipped then l.shipped else l.returned,
            status := LoanOrderLineStatus.RETURNED } else l))
      (g := fun l : LoanOrderLineItem => l.id) (fun l _ => hid l)
    rw [hmap]
    exact h4

theorem action_return_claims {s : LoanState} (today : Nat) (hS : StInv s)
    (h : ClaimsInv s) : ClaimsInv (s.action_return today) := by
  unfold LoanState.action_return
  split
  case isFalse => exact h
  case isTrue hg =>
  obtain ⟨h0, h1⟩ := h
  constructor
  · exact h0
  · intro st hst
    have hx := h1 st hst
    unfold total_allocation_claims sales_order_allocation_count loan_allocation_count at hx ⊢
    dsimp only
    rw [sumBy_map]
    refine le_trans (add_le_add_left (sumBy_le_sumBy ?_) _) hx
    intro a ha
    obtain ⟨d1, _⟩ := hS.2.1 a ha
    by_cases hc : ((match findLine s a.lineId with
        | some l => returnCascadeLine s l
        | none => false) && decide (0 < a.quantity)) = true
    · by_cases hrem : 0 < a.quantity - a.returned
      · by_cases hid : (a.itemId == st.id) = true
        · simp [hc, hrem, hid]
          omega
        · simp only [Bool.not_eq_true] at hid
          simp [hc, hrem, hid]
      · simp [hc, hrem]
    · simp only [Bool.not_eq_true] at hc
      simp [hc]

theorem action_approve_claims {s : LoanState} (h : ClaimsInv s) : ClaimsInv s.action_approve := by
  unfold LoanState.action_approve
  split
  · exact ClaimsInv_transfer h rfl rfl rfl
  · exact h

theorem action_issue_claims {s : LoanState} (today : Nat) (h : ClaimsInv s) :
    ClaimsInv (s.action_issue today) := by
  unfold LoanState.action_issue
  split
  · exact ClaimsInv_transfer h rfl rfl rfl
  · exact h

theorem action_hold_claims {s : LoanState} (h : ClaimsInv s) : ClaimsInv s.action_hold := by
  unfold LoanState.action_hold
  split
  · exact ClaimsInv_transfer h rfl rfl rfl
  · exact h

theorem action_cancel_claims {s : LoanState} (h : ClaimsInv s) : ClaimsInv s.action_cancel := by
  unfold LoanState.action_cancel
  split
  · exact ClaimsInv_transfer h rfl rfl rfl
  · exact h

theorem action_convert_claims {s : LoanState} (h : ClaimsInv s) : ClaimsInv s.action_convert := by
  unfold LoanState.action_convert
  split
  · exact ClaimsInv_transfer h rfl rfl rfl
  · exact h

theorem action_write_off_claims {s : LoanState} (h : ClaimsInv s) : ClaimsInv s.action_write_off := by
  unfold LoanState.action_write_off
  split
  · exact ClaimsInv_transfer h rfl rfl rfl
  · exact h

theorem issue_order_ok {today : Nat} {s s' : LoanState}
    (hok : issue_order today s = .ok s') : s' = s.action_issue today := by
  unfold issue_order at hok
  split at hok
  · simp at hok
  · split at hok
    · simp at hok
    · simpa using hok.symm

theorem return_order_ok {today : Nat} {s s' : LoanState}
    (hok : return_order today s = .ok s') : s' = s.action_return today := by
  unfold return_order at hok
  split at hok
  · simp at hok
  · split at hok
    · simp at hok
    · simpa using hok.symm

theorem return_order_stinv {today : Nat} {s s' : LoanState} (h : StInv s)
    (hok : return_order today s = .ok s') : StInv s' := by
  rw [return_order_ok hok]
  exact action_return_stinv today h

theorem return_order_claims {today : Nat} {s s' : LoanState} (hS : StInv s) (h : ClaimsInv s)
    (hok : return_order today s = .ok s') : ClaimsInv s' := by
  rw [return_order_ok hok]
  exact action_return_claims today hS h

theorem issue_order_stinv {today : Nat} {s s' : LoanState} (h : StInv s)
    (hok : issue_order today s = .ok s') : StInv s' := by
  rw [issue_order_ok hok]
  exact action_issue_stinv today h

theorem issue_order_claims {today : Nat} {s s' : LoanState} (h : ClaimsInv s)
    (hok : issue_order today s = .ok s') : ClaimsInv s' := by
  rw [issue_order_ok hok]
  exact action_issue_claims today h

/-- `_action_issue` only touches `status` and `issue_date`. -/
theorem action_issue_frame (s : LoanState) (today : Nat) :
    (s.action_issue today).orderId = s.orderId ∧
      (s.action_issue today).lines = s.lines ∧
      (s.action_issue today).allocations = s.allocations ∧
      (s.action_issue today).stocks = s.stocks ∧
      (s.action_issue today).salesAllocations = s.salesAllocations ∧
      (s.action_issue today).conversions = s.conversions ∧
      (s.action_issue today).ship_date = s.ship_date ∧
      (s.action_issue today).auto_complete = s.auto_complete := by
  unfold LoanState.action_issue
  split <;> simp

/-! ### Shipping lemmas -/

/-- The four per-item conditions of the `ship_line_items` loop, exactly as the
claim states them: line fetched and owned by this order, positive quantity,
within the line's remaining quantity, within the stock unit's unallocated
quantity. -/
def shipItemCond (s : LoanState) (it : ShipItem) : Prop :=
  (∃ line, findLine s it.lineId = some line ∧ line.orderId = s.orderId ∧
    0 < it.quantity ∧ it.quantity ≤ line.quantity - line.shipped) ∧
  (∃ stock, findStock s it.stockId = some stock ∧
    it.quantity ≤ unallocated_quantity s stock)

theorem shipOne_ok_elim {s s' : LoanState} {it : ShipItem}
    (h : shipOne s it = .ok s') : shipItemCond s it ∧ s' = shipApply s it := by
  unfold shipOne at h
  split at h
  next => simp at h
  next line hfl =>
    split at h
    next => simp at h
    next h1 =>
      split at h
      next => simp at h
      next h2 =>
        split at h
        next => simp at h
        next h3 =>
          split at h
          next => simp at h
          next stock hfs =>
            split at h
            next => simp at h
            next h5 =>
              refine ⟨⟨⟨line, hfl, ?_, lt_of_not_le h2, le_of_not_lt h3⟩,
                ⟨stock, hfs, le_of_not_lt h5⟩⟩, ?_⟩
              · simpa using h1
              · simpa using h.symm

theorem shipOne_ok_intro {s : LoanState} {it : ShipItem} (h : shipItemCond s it) :
    shipOne s it = .ok (shipApply s it) := by
  obtain ⟨⟨line, hfl, hown, hq, hrem⟩, ⟨stock, hfs, havail⟩⟩ := h
  unfold shipOne
  rw [hfl, hfs]
  dsimp only
  rw [if_neg (by simp [hown]), if_neg (by omega), if_neg (by omega), if_neg (by omega)]

theorem is_open_congr {s s' : LoanState} (h : s'.status = s.status) :
    s'.is_open = s.is_open := by
  unfold LoanState.is_open
  rw [h]

theorem findLine_id {s : LoanState} {lid : Nat} {l : LoanOrderLineItem}
    (h : findLine s lid = some l) : l.id = lid := by
  have := List.find?_some h
  simpa using this

theorem findLine_mem {s : LoanState} {lid : Nat} {l : LoanOrderLineItem}
    (h : findLine s lid = some l) : l ∈ s.lines :=
  List.mem_of_find?_eq_some h

theorem findStock_id {s : LoanState} {sid : Nat} {st : StockItem}
    (h : findStock s sid = some st) : st.id = sid := by
  have := List.find?_some h
  simpa using this

theorem findStock_mem {s : LoanState} {sid : Nat} {st : StockItem}
    (h : findStock s sid = some st) : st ∈ s.stocks :=
  List.mem_of_find?_eq_some h

theorem findAlloc_id {s : LoanState} {aid : Nat} {a : LoanOrderAllocation}
    (h : findAlloc s aid = some a) : a.id = aid := by
  have := List.find?_some h
  simpa using this

theorem findAlloc_mem {s : LoanState} {aid : Nat} {a : LoanOrderAllocation}
    (h : findAlloc s aid = some a) : a ∈ s.allocations :=
  List.mem_of_find?_eq_some h

theorem shipLineUpdate_id (it : ShipItem) (l : LoanOrderLineItem) :
    (shipLineUpdate it l).id = l.id := by
  unfold shipLineUpdate
  dsimp only
  split <;> rfl

theorem shipLineUpdate_fields (it : ShipItem) (l : LoanOrderLineItem) :
    (shipLineUpdate it l).shipped = l.shipped + it.quantity ∧
      (shipLineUpdate it l).quantity = l.quantity ∧
      (shipLineUpdate it l).returned = l.returned ∧
      (shipLineUpdate it l).converted_quantity = l.converted_quantity ∧
      (shipLineUpdate it l).returned_and_sold_quantity = l.returned_and_sold_quantity ∧
      (shipLineUpdate it l).orderId = l.orderId := by
  unfold shipLineUpdate
  dsimp only
  split <;> simp

/-- The two shapes of `shipApply`, by whether the `(line, stock)` allocation
already exists. -/
theorem shipApply_cases (s : LoanState) (it : ShipItem) :
    (∃ a₀, s.allocations.find? (shipAllocPred it) = some a₀ ∧
      shipApply s it = { s with
        allocations := updateFirst s.allocations (shipAllocPred it)
          (fun a => { a with quantity := a.quantity + it.quantity }),
        lines := updateFirst s.lines (fun l => l.id == it.lineId) (shipLineUpdate it) }) ∨
    (s.allocations.find? (shipAllocPred it) = none ∧
      shipApply s it = { s with
        allocations := s.allocations ++
          [⟨s.nextAllocId, it.lineId, it.stockId, it.quantity, 0, false, none⟩],
        nextAllocId := s.nextAllocId + 1,
        lines := updateFirst s.lines (fun l => l.id == it.lineId) (shipLineUpdate it) }) := by
  cases hga : s.allocations.find? (shipAllocPred it) with
  | some a₀ =>
    left
    exact ⟨a₀, rfl, by unfold shipApply; rw [hga]⟩
  | none =>
    right
    exact ⟨rfl, by unfold shipApply; rw [hga]⟩

theorem shipApply_frame (s : LoanState) (it : ShipItem) :
    (shipApply s it).status = s.status ∧
      (shipApply s it).orderId = s.orderId ∧
      (shipApply s it).stocks = s.stocks ∧
      (shipApply s it).salesAllocations = s.salesAllocations ∧
      (shipApply s it).conversions = s.conversions ∧
      (shipApply s it).ship_date = s.ship_date ∧
      (shipApply s it).auto_complete = s.auto_complete := by
  rcases shipApply_cases s it with ⟨a₀, _, heq⟩ | ⟨_, heq⟩ <;> rw [heq]<;> simp

theorem shipApply_lineIds {s : LoanState} (it : ShipItem) :
    (shipApply s it).lines.map (fun l => l.id) = s.lines.map (fun l => l.id) := by
  rcases shipApply_cases s it with ⟨a₀, _, heq⟩ | ⟨_, heq⟩ <;> rw [heq] <;>
    exact map_updateFirst _ (fun a _ => shipLineUpdate_id it a)

theorem shipApply_allocSum (s : LoanState) (it : ShipItem) (lid : Nat) :
    allocated_quantity (shipApply s it) lid =
      allocated_quantity s lid + (if it.lineId == lid then it.quantity else 0) := by
  rcases shipApply_cases s it with ⟨a₀, hga, heq⟩ | ⟨hga, heq⟩
  · have hln : a₀.lineId = it.lineId := by
      have hp := List.find?_some hga
      unfold shipAllocPred at hp
      rw [Bool.and_eq_true] at hp
      simpa using hp.1
    unfold allocated_quantity
    rw [heq]
    dsimp only
    rw [sumBy_updateFirst hga]
    dsimp only
    rw [hln]
    by_cases hlid : (it.lineId == lid) = true
    · simp only [hlid, if_true]
      ring
    · simp only [Bool.not_eq_true] at hlid
      simp only [hlid, Bool.false_eq_true, if_false]
      ring
  · unfold allocated_quantity
    rw [heq]
    dsimp only
    rw [sumBy_append_singleton]

theorem shipApply_loanCount (s : LoanState) (it : ShipItem) (sid : Nat) :
    loan_allocation_count (shipApply s it) sid =
      loan_allocation_count s sid + (if it.stockId == sid then it.quantity else 0) := by
  rcases shipApply_cases s it with ⟨a₀, hga, heq⟩ | ⟨hga, heq⟩
  · have hit : a₀.itemId = it.stockId := by
      have hp := List.find?_some hga
      unfold shipAllocPred at hp
      rw [Bool.and_eq_true] at hp
      simpa using hp.2
    unfold loan_allocation_count
    rw [heq]
    dsimp only
    rw [sumBy_updateFirst hga]
    dsimp only
    rw [hit]
    by_cases hsid : (it.stockId == sid) = true
    · simp only [hsid, if_true]
      ring
    · simp only [Bool.not_eq_true] at hsid
      simp only [hsid, Bool.false_eq_true, if_false]
      ring
  · unfold loan_allocation_count
    rw [heq]
    dsimp only
    rw [sumBy_append_singleton]

theorem shipApply_lines_decomp {s : LoanState} {it : ShipItem} {line : LoanOrderLineItem}
    (hfl : findLine s it.lineId = some line) :
    ∃ L1 L2, s.lines = L1 ++ line :: L2 ∧
      (∀ x ∈ L1, (x.id == it.lineId) = false) ∧
      (shipApply s it).lines = L1 ++ shipLineUpdate it line :: L2 := by
  have hfl2 : s.lines.find? (fun l => l.id == it.lineId) = some line := hfl
  obtain ⟨L1, L2, hLeq, hLfalse, hLupd⟩ :=
    find?_updateFirst_decomp hfl2 (shipLineUpdate it)
  refine ⟨L1, L2, hLeq, hLfalse, ?_⟩
  rcases shipApply_cases s it with ⟨a₀, _, heq⟩ | ⟨_, heq⟩ <;> rw [heq] <;> exact hLupd

theorem shipApply_stinv {s : LoanState} {it : ShipItem} {line : LoanOrderLineItem}
    (hInv : StInv s) (hfl : findLine s it.lineId = some line)
    (hown : line.orderId = s.orderId) (hq : 0 < it.quantity)
    (hrem : it.quantity ≤ line.quantity - line.shipped) : StInv (shipApply s it) := by
  obtain ⟨h1, h2, h3, h4⟩ := hInv
  obtain ⟨L1, L2, hLeq, hLfalse, hlines⟩ := shipApply_lines_decomp hfl
  obtain ⟨f1, f2, f3, f4, f5, f6⟩ := shipLineUpdate_fields it line
  obtain ⟨c1, c2, c3, c4, c5, c6, c7, c8⟩ := h1 line (findLine_mem hfl)
  refine ⟨?_, ?_, ?_, ?_⟩
  · intro l' hl'
    rw [hlines] at hl'
    rcases List.mem_append.mp hl' with hmem | hmem
    · exact h1 l' (by rw [hLeq]; exact List.mem_append_left _ hmem)
    · rcases List.mem_cons.mp hmem with rfl | hmem2
      · exact ⟨by rw [f1]; omega, by rw [f1, f2]; omega, by rw [f3]; omega,
          by rw [f3, f1]; omega, by rw [f4]; omega, by rw [f4, f1]; omega,
          by rw [f5]; omega, by rw [f5, f3]; omega⟩
      · exact h1 l' (by rw [hLeq]; exact List.mem_append_right _ (List.mem_cons_of_mem _ hmem2))
  · intro a' ha'
    rcases shipApply_cases s it with ⟨a₀, hga, heq⟩ | ⟨hga, heq⟩
    · rw [heq] at ha'
      dsimp only at ha'
      obtain ⟨A1, A2, hAeq, _, hAupd⟩ := find?_updateFirst_decomp hga
        (fun a => { a with quantity := a.quantity + it.quantity })
      rw [hAupd] at ha'
      rcases List.mem_append.mp ha' with hmem | hmem
      · exact h2 a' (by rw [hAeq]; exact List.mem_append_left _ hmem)
      · rcases List.mem_cons.mp hmem with rfl | hmem2
        · obtain ⟨d1, d2⟩ := h2 a₀ (by rw [hAeq]; exact List.mem_append_right _ (List.mem_cons_self _ _))
          exact ⟨by dsimp; omega, by dsimp; omega⟩
        · exact h2 a' (by rw [hAeq]; exact List.mem_append_right _ (List.mem_cons_of_mem _ hmem2))
    · rw [heq] at ha'
      dsimp only at ha'
      rcases List.mem_append.mp ha' with hmem | hmem
      · exact h2 a' hmem
      · rcases List.mem_cons.mp hmem with rfl | hmem2
        · exact ⟨le_of_lt hq, le_refl 0⟩
        · cases hmem2
  · intro hop l' hl' hlo'
    have hopS : s.is_open = true := by
      rw [← is_open_congr (shipApply_frame s it).1]
      exact hop
    have horder := (shipApply_frame s it).2.1
    rw [horder] at hlo'
    rw [shipApply_allocSum]
    rw [hlines] at hl'
    have hlid : line.id = it.lineId := findLine_id hfl
    have hnods : line.id ∉ L2.map (fun l => l.id) := by
      rw [hLeq] at h4
      rw [List.map_append, List.map_cons] at h4
      have := (h4.of_append_right)
      exact (List.nodup_cons.mp this).1
    rcases List.mem_append.mp hl' with hmem | hmem
    · have hne : (l'.id == it.lineId) = false := hLfalse l' hmem
      have hδ : (if (it.lineId == l'.id) = true then it.quantity else 0) = 0 := by
        rw [if_neg]
        intro hcon
        rw [beq_iff_eq] at hcon
        exact (beq_eq_false_iff_ne.mp hne) hcon.symm
      rw [hδ, add_zero]
      exact h3 hopS l' (by rw [hLeq]; exact List.mem_append_left _ hmem) hlo'
    · rcases List.mem_cons.mp hmem with rfl | hmem2
      · have hid' : (shipLineUpdate it line).id = line.id := shipLineUpdate_id it line
        rw [hid', hlid]
        rw [if_pos (by simp)]
        have hbase := h3 hopS line (findLine_mem hfl) hown
        rw [f1, f3]
        rw [hlid] at hbase
        omega
      · have hne : l'.id ≠ it.lineId := by
          intro hcon
          apply hnods
          rw [hlid, ← hcon]
          exact List.mem_map_of_mem _ hmem2
        have hδ : (if (it.lineId == l'.id) = true then it.quantity else 0) = 0 := by
          rw [if_neg]
          intro hcon
          rw [beq_iff_eq] at hcon
          exact hne hcon.symm
        rw [hδ, add_zero]
        exact h3 hopS l'
          (by rw [hLeq]; exact List.mem_append_right _ (List.mem_cons_of_mem _ hmem2)) hlo'
  · rw [shipApply_lineIds]
    exact h4

theorem shipApply_claims {s : LoanState} {it : ShipItem} {stock : StockItem}
    (hC : ClaimsInv s) (hfs : findStock s it.stockId = some stock)
    (havail : it.quantity ≤ unallocated_quantity s stock) : ClaimsInv (shipApply s it) := by
  obtain ⟨h0, h1⟩ := hC
  have hstfr : (shipApply s it).stocks = s.stocks := (shipApply_frame s it).2.2.1
  have hsafr : (shipApply s it).salesAllocations = s.salesAllocations :=
    (shipApply_frame s it).2.2.2.1
  constructor
  · rw [hstfr]; exact h0
  · intro st hst
    rw [hstfr] at hst
    unfold total_allocation_claims
    rw [shipApply_loanCount]
    have hsales : sales_order_allocation_count (shipApply s it) st.id =
        sales_order_allocation_count s st.id := by
      unfold sales_order_allocation_count
      rw [hsafr]
    rw [hsales]
    by_cases hsid : (it.stockId == st.id) = true
    · have hideq : st.id = stock.id := by
        rw [findStock_id hfs]
        exact (beq_iff_eq.mp hsid).symm
      have hst_eq : st = stock :=
        List.inj_on_of_nodup_map h0 hst (findStock_mem hfs) hideq
      rw [if_pos hsid]
      have hh := h1 stock (findStock_mem hfs)
      unfold unallocated_quantity total_allocation_claims at havail
      subst hst_eq
      omega
    · rw [if_neg hsid, add_zero]
      exact h1 st hst

/-- Shipped totals, summed per line id. -/
def lineShippedSum (s : LoanState) (lid : Nat) : Int :=
  sumBy s.lines (fun l => if l.id == lid then l.shipped else 0)

theorem shipApply_shippedSum {s : LoanState} {it : ShipItem} {line : LoanOrderLineItem}
    (hfl : findLine s it.lineId = some line) (lid : Nat) :
    lineShippedSum (shipApply s it) lid =
      lineShippedSum s lid + (if it.lineId == lid then it.quantity else 0) := by
  obtain ⟨L1, L2, hLeq, hLfalse, hlines⟩ := shipApply_lines_decomp hfl
  obtain ⟨f1, f2, f3, f4, f5, f6⟩ := shipLineUpdate_fields it line
  have hlid : line.id = it.lineId := findLine_id hfl
  unfold lineShippedSum
  rw [hlines, hLeq]
  simp only [sumBy, List.map_append, List.map_cons, List.sum_append, List.sum_cons]
  rw [shipLineUpdate_id it line, f1, hlid]
  by_cases hl : (it.lineId == lid) = true
  · simp only [hl, if_true]
    ring
  · simp only [Bool.not_eq_true] at hl
    simp only [hl, Bool.false_eq_true, if_false]
    ring

/-- After a batch item has shipped, the line it targeted carries status SHIPPED
whenever its shipped total has reached its ordered quantity. -/
def lineFullyShippedFlag (s : LoanState) (lid : Nat) : Prop :=
  ∀ l ∈ s.lines, l.id = lid → l.quantity ≤ l.shipped → l.status = .SHIPPED

theorem shipApply_establishes_flag {s : LoanState} {it : ShipItem} {line : LoanOrderLineItem}
    (hfl : findLine s it.lineId = some line)
    (h4 : (s.lines.map (fun l => l.id)).Nodup) :
    lineFullyShippedFlag (shipApply s it) it.lineId := by
  obtain ⟨L1, L2, hLeq, hLfalse, hlines⟩ := shipApply_lines_decomp hfl
  have hlid : line.id = it.lineId := findLine_id hfl
  have hnods : line.id ∉ L2.map (fun l => l.id) := by
    rw [hLeq] at h4
    rw [List.map_append, List.map_cons] at h4
    exact (List.nodup_cons.mp h4.of_append_right).1
  intro l' hl' hid hfull
  rw [hlines] at hl'
  rcases List.mem_append.mp hl' with hmem | hmem
  · exact absurd (beq_iff_eq.mpr hid) (by simp [hLfalse l' hmem])
  · rcases List.mem_cons.mp hmem with rfl | hmem2
    · unfold shipLineUpdate at hfull ⊢
      dsimp only at hfull ⊢
      split at hfull
      next hcond => simp [hcond]
      next hcond =>
        dsimp only at hfull
        exact absurd hfull hcond
    · exact absurd hid (by
        intro hcon
        apply hnods
        rw [hlid, ← hcon]
        exact List.mem_map_of_mem _ hmem2)

theorem shipApply_preserves_flag {s : LoanState} {it : ShipItem} {line : LoanOrderLineItem}
    (hfl : findLine s it.lineId = some line)
    (h4 : (s.lines.map (fun l => l.id)).Nodup) {lid : Nat}
    (hflag : lineFullyShippedFlag s lid) : lineFullyShippedFlag (shipApply s it) lid := by
  by_cases heq : it.lineId = lid
  · subst heq
    exact shipApply_establishes_flag hfl h4
  · obtain ⟨L1, L2, hLeq, hLfalse, hlines⟩ := shipApply_lines_decomp hfl
    have hlid : line.id = it.lineId := findLine_id hfl
    intro l' hl' hid hfull
    rw [hlines] at hl'
    rcases List.mem_append.mp hl' with hmem | hmem
    · exact hflag l' (by rw [hLeq]; exact List.mem_append_left _ hmem) hid hfull
    · rcases List.mem_cons.mp hmem with rfl | hmem2
      · exact absurd hid (by rw [shipLineUpdate_id it line, hlid]; exact heq)
      · exact hflag l'
          (by rw [hLeq]; exact List.mem_append_right _ (List.mem_cons_of_mem _ hmem2)) hid hfull

theorem shipOne_isOk_iff (s : LoanState) (it : ShipItem) :
    (shipOne s it).isOk = true ↔ shipItemCond s it := by
  constructor
  · intro h
    cases hres : shipOne s it with
    | error e => rw [hres] at h; simp [Except.isOk, Except.toBool] at h
    | ok s1 => exact (shipOne_ok_elim hres).1
  · intro h
    rw [shipOne_ok_intro h]
    rfl

theorem shipLoop_stinv : ∀ {items : List ShipItem} {s s' : LoanState},
    StInv s → shipLoop items s = .ok s' → StInv s' := by
  intro items
  induction items with
  | nil =>
    intro s s' h hok
    unfold shipLoop at hok
    simp at hok
    rwa [← hok]
  | cons it rest ih =>
    intro s s' h hok
    unfold shipLoop at hok
    cases hone : shipOne s it with
    | error e => rw [hone] at hok; simp at hok
    | ok s1 =>
      rw [hone] at hok
      obtain ⟨⟨⟨line, hfl, hown, hq, hrem⟩, _⟩, hs1⟩ := shipOne_ok_elim hone
      subst hs1
      exact ih (shipApply_stinv h hfl hown hq hrem) hok

theorem shipLoop_claims : ∀ {items : List ShipItem} {s s' : LoanState},
    StInv s → ClaimsInv s → shipLoop items s = .ok s' → ClaimsInv s' := by
  intro items
  induction items with
  | nil =>
    intro s s' _ hc hok
    unfold shipLoop at hok
    simp at hok
    rwa [← hok]
  | cons it rest ih =>
    intro s s' h hc hok
    unfold shipLoop at hok
    cases hone : shipOne s it with
    | error e => rw [hone] at hok; simp at hok
    | ok s1 =>
      rw [hone] at hok
      obtain ⟨⟨⟨line, hfl, hown, hq, hrem⟩, ⟨stock, hfs, havail⟩⟩, hs1⟩ := shipOne_ok_elim hone
      subst hs1
      exact ih (shipApply_stinv h hfl hown hq hrem) (shipApply_claims hc hfs havail) hok

theorem shipLoop_frame : ∀ {items : List ShipItem} {s s' : LoanState},
    shipLoop items s = .ok s' →
      s'.status = s.status ∧ s'.orderId = s.orderId ∧ s'.stocks = s.stocks ∧
        s'.salesAllocations = s.salesAllocations ∧ s'.conversions = s.conversions ∧
        s'.ship_date = s.ship_date ∧ s'.auto_complete = s.auto_complete := by
  intro items
  induction items with
  | nil =>
    intro s s' hok
    unfold shipLoop at hok
    simp at hok
    rw [← hok]
    exact ⟨rfl, rfl, rfl, rfl, rfl, rfl, rfl⟩
  | cons it rest ih =>
    intro s s' hok
    unfold shipLoop at hok
    cases hone : shipOne s it with
    | error e => rw [hone] at hok; simp at hok
    | ok s1 =>
      rw [hone] at hok
      obtain ⟨_, hs1⟩ := shipOne_ok_elim hone
      subst hs1
      obtain ⟨g1, g2, g3, g4, g5, g6, g7⟩ := ih hok
      obtain ⟨k1, k2, k3, k4, k5, k6, k7⟩ := shipApply_frame s it
      exact ⟨g1.trans k1, g2.trans k2, g3.trans k3, g4.trans k4, g5.trans k5,
        g6.trans k6, g7.trans k7⟩

theorem shipLoop_shippedSum : ∀ {items : List ShipItem} {s s' : LoanState},
    shipLoop items s = .ok s' → ∀ lid,
      lineShippedSum s' lid = lineShippedSum s lid +
        sumBy items (fun it => if it.lineId == lid then it.quantity else 0) := by
  intro items
  induction items with
  | nil =>
    intro s s' hok lid
    unfold shipLoop at hok
    simp at hok
    rw [← hok, sumBy_nil, add_zero]
  | cons it rest ih =>
    intro s s' hok lid
    unfold shipLoop at hok
    cases hone : shipOne s it with
    | error e => rw [hone] at hok; simp at hok
    | ok s1 =>
      rw [hone] at hok
      obtain ⟨⟨⟨line, hfl, _, _, _⟩, _⟩, hs1⟩ := shipOne_ok_elim hone
      subst hs1
      rw [ih hok lid, shipApply_shippedSum hfl lid, sumBy_cons]
      ring

theorem shipLoop_preserves_flag : ∀ {items : List ShipItem} {s s' : LoanState} {lid : Nat},
    StInv s → lineFullyShippedFlag s lid → shipLoop items s = .ok s' →
      lineFullyShippedFlag s' lid := by
  intro items
  induction items with
  | nil =>
    intro s s' lid _ hflag hok
    unfold shipLoop at hok
    simp at hok
    rwa [← hok]
  | cons it rest ih =>
    intro s s' lid h hflag hok
    unfold shipLoop at hok
    cases hone : shipOne s it with
    | error e => rw [hone] at hok; simp at hok
    | ok s1 =>
      rw [hone] at hok
      obtain ⟨⟨⟨line, hfl, hown, hq, hrem⟩, _⟩, hs1⟩ := shipOne_ok_elim hone
      subst hs1
      exact ih (shipApply_stinv h hfl hown hq hrem)
        (shipApply_preserves_flag hfl h.2.2.2 hflag) hok

theorem shipLoop_flag : ∀ {items : List ShipItem} {s s' : LoanState},
    StInv s → shipLoop items s = .ok s' →
      ∀ it ∈ items, lineFullyShippedFlag s' it.lineId := by
  intro items
  induction items with
  | nil =>
    intro s s' _ _ it hit
    cases hit
  | cons it0 rest ih =>
    intro s s' h hok it hit
    unfold shipLoop at hok
    cases hone : shipOne s it0 with
    | error e => rw [hone] at hok; simp at hok
    | ok s1 =>
      rw [hone] at hok
      obtain ⟨⟨⟨line, hfl, hown, hq, hrem⟩, _⟩, hs1⟩ := shipOne_ok_elim hone
      subst hs1
      have hInv1 := shipApply_stinv h hfl hown hq hrem
      rcases List.mem_cons.mp hit with rfl | hit2
      · exact shipLoop_preserves_flag hInv1
          (shipApply_establishes_flag hfl h.2.2.2) hok
      · exact ih hInv1 hok it hit2

/-- Decomposition of a successful `ship_line_items` run: the status gate
(with auto-issue), the loop, and the final auto-transition. -/
theorem ship_line_items_ok_elim {items : List ShipItem} {today : Nat} {s s' : LoanState}
    (hok : ship_line_items items today s = .ok s') :
    ∃ s1 s2,
      ((([LoanOrderStatus.ISSUED, .SHIPPED, .PARTIAL_RETURN].contains s.status) = true ∧
          s1 = s) ∨
        (([LoanOrderStatus.ISSUED, .SHIPPED, .PARTIAL_RETURN].contains s.status) = false ∧
          ([LoanOrderStatus.PENDING, .APPROVED].contains s.status) = true ∧
          issue_order today s = .ok s1)) ∧
      shipLoop items s1 = .ok s2 ∧
      (((s2.status == LoanOrderStatus.ISSUED &&
            s2.ownLines.any (fun l => l.status == LoanOrderLineStatus.SHIPPED)) = true ∧
          s' = { s2 with status := .SHIPPED, ship_date := some (s2.ship_date.getD today) }) ∨
        ((s2.status == LoanOrderStatus.ISSUED &&
            s2.ownLines.any (fun l => l.status == LoanOrderLineStatus.SHIPPED)) = false ∧
          s' = s2)) := by
  unfold ship_line_items at hok
  split at hok
  next => simp at hok
  next s1 heq =>
    split at hok
    next => simp at hok
    next s2 hloop =>
      refine ⟨s1, s2, ?_, hloop, ?_⟩
      · split at heq
        next hc1 =>
          left
          exact ⟨hc1, by simpa using heq.symm⟩
        next hc1 =>
          split at heq
          next hc2 =>
            right
            exact ⟨Bool.not_eq_true _ ▸ Bool.eq_false_iff.mpr hc1, hc2, heq⟩
          next => simp at heq
      · split at hok
        next hc =>
          left
          exact ⟨hc, by simpa using hok.symm⟩
        next hc =>
          right
          exact ⟨Bool.eq_false_iff.mpr hc, by simpa using hok.symm⟩

theorem ship_line_items_stinv {items : List ShipItem} {today : Nat} {s s' : LoanState}
    (h : StInv s) (hok : ship_line_items items today s = .ok s') : StInv s' := by
  obtain ⟨s1, s2, hpre, hloop, hpost⟩ := ship_line_items_ok_elim hok
  have h1 : StInv s1 := by
    rcases hpre with ⟨_, rfl⟩ | ⟨_, _, hissue⟩
    · exact h
    · exact issue_order_stinv h hissue
  have h2 : StInv s2 := shipLoop_stinv h1 hloop
  rcases hpost with ⟨hc, rfl⟩ | ⟨_, rfl⟩
  · rw [Bool.and_eq_true] at hc
    have hst2 : s2.status = .ISSUED := beq_iff_eq.mp hc.1
    exact StInv_transfer h2 rfl rfl rfl (fun _ => is_open_of_status hst2 (by decide))
  · exact h2

theorem ship_line_items_claims {items : List ShipItem} {today : Nat} {s s' : LoanState}
    (h : StInv s) (hc : ClaimsInv s) (hok : ship_line_items items today s = .ok s') :
    ClaimsInv s' := by
  obtain ⟨s1, s2, hpre, hloop, hpost⟩ := ship_line_items_ok_elim hok
  have h1 : StInv s1 ∧ ClaimsInv s1 := by
    rcases hpre with ⟨_, rfl⟩ | ⟨_, _, hissue⟩
    · exact ⟨h, hc⟩
    · exact ⟨issue_order_stinv h hissue, issue_order_claims hc hissue⟩
  have h2 : ClaimsInv s2 := shipLoop_claims h1.1 h1.2 hloop
  rcases hpost with ⟨_, rfl⟩ | ⟨_, rfl⟩
  · exact ClaimsInv_transfer h2 rfl rfl rfl
  · exact h2

/-! ### Return lemmas -/

theorem returnLineUpdate_id (it : ReturnItem) (l : LoanOrderLineItem) :
    (returnLineUpdate it l).id = l.id := by
  unfold returnLineUpdate
  dsimp only
  split <;> rfl

theorem returnLineUpdate_fields (it : ReturnItem) (l : LoanOrderLineItem) :
    (returnLineUpdate it l).returned = l.returned + it.quantity ∧
      (returnLineUpdate it l).quantity = l.quantity ∧
      (returnLineUpdate it l).shipped = l.shipped ∧
      (returnLineUpdate it l).converted_quantity = l.converted_quantity ∧
      (returnLineUpdate it l).returned_and_sold_quantity = l.returned_and_sold_quantity ∧
      (returnLineUpdate it l).orderId = l.orderId := by
  unfold returnLineUpdate
  dsimp only
  split <;> simp

theorem returnOne_ok_elim {s s' : LoanState} {it : ReturnItem}
    (h : returnOne s it = .ok s') :
    ∃ a, findAlloc s it.allocId = some a ∧
      (∃ line, findLine s a.lineId = some line ∧ line.orderId = s.orderId) ∧
      0 < it.quantity ∧ it.quantity ≤ a.quantity ∧ s' = returnApply s it a := by
  unfold returnOne at h
  split at h
  next => simp at h
  next a hga =>
    split at h
    next => simp at h
    next line hfl =>
      split at h
      next => simp at h
      next h1 =>
        split at h
        next => simp at h
        next h2 =>
          split at h
          next => simp at h
          next h3 =>
            refine ⟨a, hga, ⟨line, hfl, by simpa using h1⟩,
              lt_of_not_le h2, le_of_not_lt h3, by simpa using h.symm⟩

theorem returnApply_frame (s : LoanState) (it : ReturnItem) (a : LoanOrderAllocation) :
    (returnApply s it a).status = s.status ∧
      (returnApply s it a).orderId = s.orderId ∧
      (returnApply s it a).stocks = s.stocks ∧
      (returnApply s it a).salesAllocations = s.salesAllocations ∧
      (returnApply s it a).conversions = s.conversions ∧
      (returnApply s it a).auto_complete = s.auto_complete := by
  unfold returnApply
  simp

theorem returnApply_lineIds (s : LoanState) (it : ReturnItem) (a : LoanOrderAllocation) :
    (returnApply s it a).lines.map (fun l => l.id) = s.lines.map (fun l => l.id) := by
  unfold returnApply
  dsimp only
  exact map_updateFirst _ (fun l _ => returnLineUpdate_id it l)

theorem returnApply_lines_decomp {s : LoanState} {it : ReturnItem}
    {a : LoanOrderAllocation} {line : LoanOrderLineItem}
    (hfl : findLine s a.lineId = some line) :
    ∃ L1 L2, s.lines = L1 ++ line :: L2 ∧
      (∀ x ∈ L1, (x.id == a.lineId) = false) ∧
      (returnApply s it a).lines = L1 ++ returnLineUpdate it line :: L2 := by
  have hfl2 : s.lines.find? (fun l => l.id == a.lineId) = some line := hfl
  obtain ⟨L1, L2, hLeq, hLfalse, hLupd⟩ :=
    find?_updateFirst_decomp hfl2 (returnLineUpdate it)
  exact ⟨L1, L2, hLeq, hLfalse, hLupd⟩

theorem returnApply_allocSum {s : LoanState} {it : ReturnItem} {a : LoanOrderAllocation}
    (hga : findAlloc s it.allocId = some a) (lid : Nat) :
    allocated_quantity (returnApply s it a) lid =
      allocated_quantity s lid + (if a.lineId == lid then -it.quantity else 0) := by
  unfold allocated_quantity returnApply
  dsimp only
  rw [sumBy_updateFirst hga]
  unfold returnAllocUpdate
  dsimp only
  by_cases hl : (a.lineId == lid) = true
  · simp only [hl, if_true]
    ring
  · simp only [Bool.not_eq_true] at hl
    simp only [hl, Bool.false_eq_true, if_false]
    ring

theorem returnApply_loanCount {s : LoanState} {it : ReturnItem} {a : LoanOrderAllocation}
    (hga : findAlloc s it.allocId = some a) (sid : Nat) :
    loan_allocation_count (returnApply s it a) sid =
      loan_allocation_count s sid + (if a.itemId == sid then -it.quantity else 0) := by
  unfold loan_allocation_count returnApply
  dsimp only
  rw [sumBy_updateFirst hga]
  unfold returnAllocUpdate
  dsimp only
  by_cases hl : (a.itemId == sid) = true
  · simp only [hl, if_true]
    ring
  · simp only [Bool.not_eq_true] at hl
    simp only [hl, Bool.false_eq_true, if_false]
    ring

theorem returnApply_stinv {s : LoanState} {it : ReturnItem} {a : LoanOrderAllocation}
    {line : LoanOrderLineItem} (hInv : StInv s)
    (hga : findAlloc s it.allocId = some a) (hfl : findLine s a.lineId = some line)
    (hown : line.orderId = s.orderId) (hq : 0 < it.quantity)
    (hqa : it.quantity ≤ a.quantity) (hop : s.is_open = true) :
    StInv (returnApply s it a) := by
  obtain ⟨h1, h2, h3, h4⟩ := hInv
  obtain ⟨L1, L2, hLeq, hLfalse, hlines⟩ := @returnApply_lines_decomp _ it _ _ hfl
  obtain ⟨f1, f2, f3, f4, f5, f6⟩ := returnLineUpdate_fields it line
  obtain ⟨c1, c2, c3, c4, c5, c6, c7, c8⟩ := h1 line (findLine_mem hfl)
  have hlid : line.id = a.lineId := findLine_id hfl
  have hamem : a ∈ s.allocations := findAlloc_mem hga
  have hkey : it.quantity ≤ line.shipped - line.returned := by
    have hsum : a.quantity ≤ allocated_quantity s line.id := by
      have hnn : ∀ b ∈ s.allocations,
          0 ≤ (if b.lineId == line.id then b.quantity else 0) := by
        intro b hb
        by_cases hbl : (b.lineId == line.id) = true
        · simp only [hbl, if_true]
          exact (h2 b hb).1
        · simp only [Bool.not_eq_true] at hbl
          simp [hbl]
      have := le_sumBy_of_mem hnn hamem
      unfold allocated_quantity
      have ha_self : (a.lineId == line.id) = true := by
        rw [hlid]
        exact beq_self_eq_true _
      simpa [ha_self] using this
    have hb := h3 hop line (findLine_mem hfl) hown
    omega
  refine ⟨?_, ?_, ?_, ?_⟩
  · intro l' hl'
    rw [hlines] at hl'
    rcases List.mem_append.mp hl' with hmem | hmem
    · exact h1 l' (by rw [hLeq]; exact List.mem_append_left _ hmem)
    · rcases List.mem_cons.mp hmem with rfl | hmem2
      · exact ⟨by rw [f3]; omega, by rw [f3, f2]; omega, by rw [f1]; omega,
          by rw [f1, f3]; omega, by rw [f4]; omega, by rw [f4, f3]; omega,
          by rw [f5]; omega, by rw [f5, f1]; omega⟩
      · exact h1 l' (by rw [hLeq]; exact List.mem_append_right _ (List.mem_cons_of_mem _ hmem2))
  · intro a' ha'
    unfold returnApply at ha'
    dsimp only at ha'
    obtain ⟨A1, A2, hAeq, _, hAupd⟩ := find?_updateFirst_decomp hga (returnAllocUpdate it)
    rw [hAupd] at ha'
    rcases List.mem_append.mp ha' with hmem | hmem
    · exact h2 a' (by rw [hAeq]; exact List.mem_append_left _ hmem)
    · rcases List.mem_cons.mp hmem with rfl | hmem2
      · obtain ⟨d1, d2⟩ := h2 a hamem
        unfold returnAllocUpdate
        exact ⟨by dsimp; omega, by dsimp; omega⟩
      · exact h2 a' (by rw [hAeq]; exact List.mem_append_right _ (List.mem_cons_of_mem _ hmem2))
  · intro hop' l' hl' hlo'
    have horder := (returnApply_frame s it a).2.1
    rw [horder] at hlo'
    rw [returnApply_allocSum hga]
    rw [hlines] at hl'
    have hnods : line.id ∉ L2.map (fun l => l.id) := by
      rw [hLeq] at h4
      rw [List.map_append, List.map_cons] at h4
      exact (List.nodup_cons.mp h4.of_append_right).1
    rcases List.mem_append.mp hl' with hmem | hmem
    · have hne : (l'.id == a.lineId) = false := hLfalse l' hmem
      have hδ : (if (a.lineId == l'.id) = true then -it.quantity else 0) = 0 := by
        rw [if_neg]
        intro hcon
        rw [beq_iff_eq] at hcon
        exact (beq_eq_false_iff_ne.mp hne) hcon.symm
      rw [hδ, add_zero]
      exact h3 hop l' (by rw [hLeq]; exact List.mem_append_left _ hmem) hlo'
    · rcases List.mem_cons.mp hmem with rfl | hmem2
      · rw [returnLineUpdate_id it line, hlid]
        rw [if_pos (by simp)]
        have hbase := h3 hop line (findLine_mem hfl) hown
        rw [f1, f3]
        rw [hlid] at hbase
        omega
      · have hne : l'.id ≠ a.lineId := by
          intro hcon
          apply hnods
          rw [hlid, ← hcon]
          exact List.mem_map_of_mem _ hmem2
        have hδ : (if (a.lineId == l'.id) = true then -it.quantity else 0) = 0 := by
          rw [if_neg]
          intro hcon
          rw [beq_iff_eq] at hcon
          exact hne hcon.symm
        rw [hδ, add_zero]
        exact h3 hop l'
          (by rw [hLeq]; exact List.mem_append_right _ (List.mem_cons_of_mem _ hmem2)) hlo'
  · rw [returnApply_lineIds]
    exact h4

theorem returnApply_claims {s : LoanState} {it : ReturnItem} {a : LoanOrderAllocation}
    (hC : ClaimsInv s) (hga : findAlloc s it.allocId = some a) (hq : 0 < it.quantity) :
    ClaimsInv (returnApply s it a) := by
  obtain ⟨h0, h1⟩ := hC
  have hstfr : (returnApply s it a).stocks = s.stocks := (returnApply_frame s it a).2.2.1
  have hsafr : (returnApply s it a).salesAllocations = s.salesAllocations :=
    (returnApply_frame s it a).2.2.2.1
  constructor
  · rw [hstfr]; exact h0
  · intro st hst
    rw [hstfr] at hst
    unfold total_allocation_claims
    rw [returnApply_loanCount hga]
    have hsales : sales_order_allocation_count (returnApply s it a) st.id =
        sales_order_allocation_count s st.id := by
      unfold sales_order_allocation_count
      rw [hsafr]
    rw [hsales]
    have hh := h1 st hst
    unfold total_allocation_claims at hh
    by_cases hsid : (a.itemId == st.id) = true
    · rw [if_pos hsid]
      omega
    · rw [if_neg hsid]
      omega

theorem returnLoop_stinv : ∀ {items : List ReturnItem} {s s' : LoanState},
    StInv s → s.is_open = true → returnLoop items s = .ok s' → StInv s' := by
  intro items
  induction items with
  | nil =>
    intro s s' h _ hok
    unfold returnLoop at hok
    simp at hok
    rwa [← hok]
  | cons it rest ih =>
    intro s s' h hop hok
    unfold returnLoop at hok
    cases hone : returnOne s it with
    | error e => rw [hone] at hok; simp at hok
    | ok s1 =>
      rw [hone] at hok
      obtain ⟨a, hga, ⟨line, hfl, hown⟩, hq, hqa, hs1⟩ := returnOne_ok_elim hone
      subst hs1
      refine ih (returnApply_stinv h hga hfl hown hq hqa hop) ?_ hok
      rw [is_open_congr (returnApply_frame s it a).1]
      exact hop

theorem returnLoop_claims : ∀ {items : List ReturnItem} {s s' : LoanState},
    StInv s → s.is_open = true → ClaimsInv s → returnLoop items s = .ok s' →
      ClaimsInv s' := by
  intro items
  induction items with
  | nil =>
    intro s s' _ _ hc hok
    unfold returnLoop at hok
    simp at hok
    rwa [← hok]
  | cons it rest ih =>
    intro s s' h hop hc hok
    unfold returnLoop at hok
    cases hone : returnOne s it with
    | error e => rw [hone] at hok; simp at hok
    | ok s1 =>
      rw [hone] at hok
      obtain ⟨a, hga, ⟨line, hfl, hown⟩, hq, hqa, hs1⟩ := returnOne_ok_elim hone
      subst hs1
      refine ih (returnApply_stinv h hga hfl hown hq hqa hop) ?_
        (returnApply_claims hc hga hq) hok
      rw [is_open_congr (returnApply_frame s it a).1]
      exact hop

theorem returnLoop_frame : ∀ {items : List ReturnItem} {s s' : LoanState},
    returnLoop items s = .ok s' →
      s'.status = s.status ∧ s'.orderId = s.orderId ∧ s'.stocks = s.stocks ∧
        s'.salesAllocations = s.salesAllocations ∧ s'.conversions = s.conversions ∧
        s'.auto_complete = s.auto_complete := by
  intro items
  induction items with
  | nil =>
    intro s s' hok
    unfold returnLoop at hok
    simp at hok
    rw [← hok]
    exact ⟨rfl, rfl, rfl, rfl, rfl, rfl⟩
  | cons it rest ih =>
    intro s s' hok
    unfold returnLoop at hok
    cases hone : returnOne s it with
    | error e => rw [hone] at hok; simp at hok
    | ok s1 =>
      rw [hone] at hok
      obtain ⟨a, _, _, _, _, hs1⟩ := returnOne_ok_elim hone
      subst hs1
      obtain ⟨g1, g2, g3, g4, g5, g6⟩ := ih hok
      obtain ⟨k1, k2, k3, k4, k5, k6⟩ := returnApply_frame s it a
      exact ⟨g1.trans k1, g2.trans k2, g3.trans k3, g4.trans k4, g5.trans k5, g6.trans k6⟩

/-- Decomposition of a successful `return_line_items` run. -/
theorem return_line_items_ok_elim {items : List ReturnItem} {today : Nat} {s s' : LoanState}
    (hok : return_line_items items today s = .ok s') :
    s.is_open = true ∧
    ∃ s1, returnLoop items s = .ok s1 ∧
      (((s1.pending_line_count == 0 && s1.is_open) = true ∧
          ((s1.auto_complete = true ∧ return_order today s1 = .ok s') ∨
            (s1.auto_complete = false ∧ s' = s1))) ∨
        ((s1.pending_line_count == 0 && s1.is_open) = false ∧
          (decide (0 < s1.completed_line_count) && decide (0 < s1.pending_line_count)) = true ∧
          ((([LoanOrderStatus.ISSUED, .SHIPPED].contains s1.status) = true ∧
              s' = { s1 with status := .PARTIAL_RETURN }) ∨
            (([LoanOrderStatus.ISSUED, .SHIPPED].contains s1.status) = false ∧ s' = s1))) ∨
        ((s1.pending_line_count == 0 && s1.is_open) = false ∧
          (decide (0 < s1.completed_line_count) && decide (0 < s1.pending_line_count)) = false ∧
          s' = s1)) := by
  unfold return_line_items at hok
  split at hok
  next => simp at hok
  next hopen0 =>
    have hop : s.is_open = true := by simpa using hopen0
    refine ⟨hop, ?_⟩
    split at hok
    next => simp at hok
    next s1 hloop =>
      refine ⟨s1, hloop, ?_⟩
      split at hok
      next hc1 =>
        left
        refine ⟨hc1, ?_⟩
        split at hok
        next hauto => exact Or.inl ⟨hauto, hok⟩
        next hauto =>
          right
          refine ⟨Bool.eq_false_iff.mpr hauto, by simpa using hok.symm⟩
      next hc1 =>
        split at hok
        next hc2 =>
          right; left
          refine ⟨Bool.eq_false_iff.mpr hc1, hc2, ?_⟩
          split at hok
          next hc3 => exact Or.inl ⟨hc3, by simpa using hok.symm⟩
          next hc3 => exact Or.inr ⟨Bool.eq_false_iff.mpr hc3, by simpa using hok.symm⟩
        next hc2 =>
          right; right
          exact ⟨Bool.eq_false_iff.mpr hc1, Bool.eq_false_iff.mpr hc2, by simpa using hok.symm⟩

theorem return_line_items_stinv {items : List ReturnItem} {today : Nat} {s s' : LoanState}
    (h : StInv s) (hok : return_line_items items today s = .ok s') : StInv s' := by
  obtain ⟨hop, s1, hloop, hpost⟩ := return_line_items_ok_elim hok
  have h1 : StInv s1 := returnLoop_stinv h hop hloop
  rcases hpost with ⟨_, ⟨_, hret⟩ | ⟨_, rfl⟩⟩ | ⟨_, _, ⟨hc3, rfl⟩ | ⟨_, rfl⟩⟩ | ⟨_, _, rfl⟩
  · exact return_order_stinv h1 hret
  · exact h1
  · have : s1.status = .ISSUED ∨ s1.status = .SHIPPED := by
      cases hs : s1.status <;> rw [hs] at hc3 <;> simp_all
    rcases this with hst | hst <;>
      exact StInv_transfer h1 rfl rfl rfl (fun _ => is_open_of_status hst (by decide))
  · exact h1
  · exact h1

theorem return_line_items_claims {items : List ReturnItem} {today : Nat} {s s' : LoanState}
    (h : StInv s) (hc : ClaimsInv s) (hok : return_line_items items today s = .ok s') :
    ClaimsInv s' := by
  obtain ⟨hop, s1, hloop, hpost⟩ := return_line_items_ok_elim hok
  have h1 : StInv s1 := returnLoop_stinv h hop hloop
  have hc1 : ClaimsInv s1 := returnLoop_claims h hop hc hloop
  rcases hpost with ⟨_, ⟨_, hret⟩ | ⟨_, rfl⟩⟩ | ⟨_, _, ⟨_, rfl⟩ | ⟨_, rfl⟩⟩ | ⟨_, _, rfl⟩
  · exact return_order_claims h1 hc1 hret
  · exact hc1
  · exact ClaimsInv_transfer hc1 rfl rfl rfl
  · exact hc1
  · exact hc1

/-! ### Conversion lemmas -/

/-- The fields of an allocation other than the conversion flags. -/
structure AllocCore where
  id : Nat
  lineId : Nat
  itemId : Nat
  quantity : Int
  returned : Int
  deriving DecidableEq, Repr

/-- Project an allocation onto its non-flag fields. -/
def allocCore (a : LoanOrderAllocation) : AllocCore :=
  ⟨a.id, a.lineId, a.itemId, a.quantity, a.returned⟩

theorem allocated_quantity_eq_of_core {s1 s2 : LoanState}
    (h : s1.allocations.map allocCore = s2.allocations.map allocCore) (lid : Nat) :
    allocated_quantity s1 lid = allocated_quantity s2 lid := by
  unfold allocated_quantity sumBy
  have h1 : s1.allocations.map (fun a => if a.lineId == lid then a.quantity else 0) =
      (s1.allocations.map allocCore).map (fun c => if c.lineId == lid then c.quantity else 0) := by
    rw [List.map_map]
    rfl
  have h2 : s2.allocations.map (fun a => if a.lineId == lid then a.quantity else 0) =
      (s2.allocations.map allocCore).map (fun c => if c.lineId == lid then c.quantity else 0) := by
    rw [List.map_map]
    rfl
  rw [h1, h2, h]

theorem loan_count_eq_of_core {s1 s2 : LoanState}
    (h : s1.allocations.map allocCore = s2.allocations.map allocCore) (sid : Nat) :
    loan_allocation_count s1 sid = loan_allocation_count s2 sid := by
  unfold loan_allocation_count sumBy
  have h1 : s1.allocations.map (fun a => if a.itemId == sid then a.quantity else 0) =
      (s1.allocations.map allocCore).map (fun c => if c.itemId == sid then c.quantity else 0) := by
    rw [List.map_map]
    rfl
  have h2 : s2.allocations.map (fun a => if a.itemId == sid then a.quantity else 0) =
      (s2.allocations.map allocCore).map (fun c => if c.itemId == sid then c.quantity else 0) := by
    rw [List.map_map]
    rfl
  rw [h1, h2, h]

theorem allocInv_of_core {l1 l2 : List LoanOrderAllocation}
    (h : l1.map allocCore = l2.map allocCore) (hInv : ∀ a ∈ l2, AllocInv a) :
    ∀ a ∈ l1, AllocInv a := by
  intro a ha
  have hmem : allocCore a ∈ l2.map allocCore := by
    rw [← h]
    exact List.mem_map_of_mem _ ha
  obtain ⟨b, hb, hcore⟩ := List.mem_map.mp hmem
  obtain ⟨d1, d2⟩ := hInv b hb
  have hq : b.quantity = a.quantity := congrArg AllocCore.quantity hcore
  have hr : b.returned = a.returned := congrArg AllocCore.returned hcore
  exact ⟨hq ▸ d1, hr ▸ d2⟩

/-- The allocation-transfer loop only flips conversion flags: every non-flag
allocation field is unchanged, as are all state components other than
`salesAllocations`, `nextSalesAllocId` and the allocation flags. -/
theorem consumeAllocs_effects (salesLineId : Nat) :
    ∀ (ids : List Nat) (rem : Int) (s : LoanState),
      (consumeAllocs salesLineId ids rem s).allocations.map allocCore =
          s.allocations.map allocCore ∧
        (consumeAllocs salesLineId ids rem s).lines = s.lines ∧
        (consumeAllocs salesLineId ids rem s).stocks = s.stocks ∧
        (consumeAllocs salesLineId ids rem s).conversions = s.conversions ∧
        (consumeAllocs salesLineId ids rem s).status = s.status ∧
        (consumeAllocs salesLineId ids rem s).orderId = s.orderId ∧
        (consumeAllocs salesLineId ids rem s).return_date = s.return_date ∧
        (consumeAllocs salesLineId ids rem s).auto_complete = s.auto_complete := by
  intro ids
  induction ids with
  | nil =>
    intro rem s
    exact ⟨rfl, rfl, rfl, rfl, rfl, rfl, rfl, rfl⟩
  | cons aid rest ih =>
    intro rem s
    unfold consumeAllocs
    split
    · exact ⟨rfl, rfl, rfl, rfl, rfl, rfl, rfl, rfl⟩
    · cases hga : findAlloc s aid with
      | none => exact ih rem s
      | some a =>
        dsimp only
        split
        · obtain ⟨g1, g2, g3, g4, g5, g6, g7, g8⟩ := ih (rem - min (a.quantity - a.returned) rem) _
          refine ⟨?_, by simpa using g2, by simpa using g3, by simpa using g4,
            by simpa using g5, by simpa using g6, by simpa using g7, by simpa using g8⟩
          rw [g1]
          dsimp only
          exact map_updateFirst _ (fun b _ => rfl)
        · exact ih rem s

theorem create_or_update_effects (l : LoanOrderLineItem) (q : Int) (ir : Bool)
    (s : LoanState) :
    ((create_or_update_sales_order l q ir s).1.allocations.map allocCore =
        s.allocations.map allocCore) ∧
      (create_or_update_sales_order l q ir s).1.lines = s.lines ∧
      (create_or_update_sales_order l q ir s).1.stocks = s.stocks ∧
      (create_or_update_sales_order l q ir s).1.conversions = s.conversions ∧
      (create_or_update_sales_order l q ir s).1.status = s.status ∧
      (create_or_update_sales_order l q ir s).1.orderId = s.orderId ∧
      (create_or_update_sales_order l q ir s).1.return_date = s.return_date ∧
      (create_or_update_sales_order l q ir s).1.auto_complete = s.auto_complete := by
  unfold create_or_update_sales_order
  cases ir with
  | true =>
    dsimp only
    exact ⟨rfl, rfl, rfl, rfl, rfl, rfl, rfl, rfl⟩
  | false =>
    dsimp only
    exact consumeAllocs_effects _ _ _ _

/-- `sell_returned_items` creates no stock allocations at all. -/
theorem create_or_update_returned_allocs (l : LoanOrderLineItem) (q : Int)
    (s : LoanState) :
    (create_or_update_sales_order l q true s).1.allocations = s.allocations ∧
      (create_or_update_sales_order l q true s).1.salesAllocations = s.salesAllocations := by
  unfold create_or_update_sales_order
  exact ⟨rfl, rfl⟩

theorem create_or_update_snd (l : LoanOrderLineItem) (q : Int) (ir : Bool) (s : LoanState) :
    (create_or_update_sales_order l q ir s).2 = s.nextSalesLineId := by
  unfold create_or_update_sales_order
  cases ir <;> rfl

theorem can_convert_elim {s : LoanState} {l : LoanOrderLineItem} {q : Int}
    (h : can_convert_to_sale s l q = true) :
    0 < q ∧ q ≤ l.remaining_on_loan ∧
      (s.status = .ISSUED ∨ s.status = .SHIPPED ∨ s.status = .PARTIAL_RETURN) := by
  unfold can_convert_to_sale at h
  split at h
  next => simp at h
  next =>
    split at h
    next => simp at h
    next hq =>
      split at h
      next => simp at h
      next hr =>
        split at h
        next => simp at h
        next hst =>
          refine ⟨lt_of_not_le hq, le_of_not_lt hr, ?_⟩
          have hc : ([LoanOrderStatus.ISSUED, .SHIPPED, .PARTIAL_RETURN].contains s.status) = true := by
            cases hcb : ([LoanOrderStatus.ISSUED, .SHIPPED, .PARTIAL_RETURN].contains s.status) with
            | true => rfl
            | false => exact absurd (by rw [hcb]; rfl) hst
          cases hs : s.status <;> rw [hs] at hc <;> simp_all

theorem convert_ok_elim {lid : Nat} {q : Int} {today : Nat} {s s' : LoanState}
    (h : convert_to_sales_order lid q today s = .ok s') :
    ∃ l, findLine s lid = some l ∧ can_convert_to_sale s l q = true ∧
      s' = convertApply lid q today l s := by
  unfold convert_to_sales_order at h
  split at h
  next => simp at h
  next l hfl =>
    split at h
    next => simp at h
    next hcc =>
      dsimp only at h
      split at h
      next => simp at h
      next =>
        refine ⟨l, hfl, ?_, by simpa using h.symm⟩
        cases hcb : can_convert_to_sale s l q with
        | true => rfl
        | false => exact absurd (by rw [hcb]; rfl) hcc

theorem convertLineUpdate_id (q : Int) (today : Nat) (b : LoanOrderLineItem) :
    (convertLineUpdate q today b).id = b.id := by
  unfold convertLineUpdate
  dsimp only
  split
  · rfl
  · split <;> rfl

theorem convertLineUpdate_fields (q : Int) (today : Nat) (b : LoanOrderLineItem) :
    (convertLineUpdate q today b).converted_quantity = b.converted_quantity + q ∧
      (convertLineUpdate q today b).quantity = b.quantity ∧
      (convertLineUpdate q today b).shipped = b.shipped ∧
      (convertLineUpdate q today b).returned = b.returned ∧
      (convertLineUpdate q today b).returned_and_sold_quantity = b.returned_and_sold_quantity ∧
      (convertLineUpdate q today b).orderId = b.orderId := by
  unfold convertLineUpdate
  dsimp only
  split
  · simp
  · split <;> simp

/-- The overall shape of a successful conversion: order status, order id and
stocks unchanged; one conversion record appended; loan allocations changed at
most in their conversion flags; the line found under `lid` got
`converted_quantity + q`. -/
theorem convertApply_facts {lid : Nat} {q : Int} {today : Nat} {l : LoanOrderLineItem}
    {s : LoanState} (_hfl : findLine s lid = some l) :
    (convertApply lid q today l s).status = s.status ∧
      (convertApply lid q today l s).orderId = s.orderId ∧
      (convertApply lid q today l s).stocks = s.stocks ∧
      (convertApply lid q today l s).conversions =
        s.conversions ++ [⟨lid, s.nextSalesLineId, q, false⟩] ∧
      (convertApply lid q today l s).allocations.map allocCore =
        s.allocations.map allocCore ∧
      (convertApply lid q today l s).lines =
        updateFirst s.lines (fun b => b.id == lid) (convertLineUpdate q today) := by
  obtain ⟨e1, e2, e3, e4, e5, e6, e7, e8⟩ := create_or_update_effects l q false s
  unfold convertApply
  dsimp only
  refine ⟨e5, e6, e3, ?_, e1, ?_⟩
  · rw [e4, create_or_update_snd]
  · rw [e2]

theorem convertApply_stinv {s : LoanState} {lid : Nat} {q : Int} {today : Nat}
    {l : LoanOrderLineItem} (hInv : StInv s) (hfl : findLine s lid = some l)
    (hcc : can_convert_to_sale s l q = true) : StInv (convertApply lid q today l s) := by
  obtain ⟨h1, h2, h3, h4⟩ := hInv
  obtain ⟨k1, k2, k3, k4, k5, k6⟩ := @convertApply_facts _ q today _ _ hfl
  obtain ⟨hq, hrem, _⟩ := can_convert_elim hcc
  obtain ⟨c1, c2, c3, c4, c5, c6, c7, c8⟩ := h1 l (findLine_mem hfl)
  have hfl2 : s.lines.find? (fun b => b.id == lid) = some l := hfl
  obtain ⟨L1, L2, hLeq, hLfalse, hLupd⟩ :=
    find?_updateFirst_decomp hfl2 (convertLineUpdate q today)
  obtain ⟨f1, f2, f3, f4, f5, f6⟩ := convertLineUpdate_fields q today l
  unfold LoanOrderLineItem.remaining_on_loan at hrem
  refine ⟨?_, ?_, ?_, ?_⟩
  · intro l' hl'
    rw [k6, hLupd] at hl'
    rcases List.mem_append.mp hl' with hmem | hmem
    · exact h1 l' (by rw [hLeq]; exact List.mem_append_left _ hmem)
    · rcases List.mem_cons.mp hmem with rfl | hmem2
      · exact ⟨by rw [f3]; omega, by rw [f3, f2]; omega, by rw [f4]; omega,
          by rw [f4, f3]; omega, by rw [f1]; omega, by rw [f1, f3]; omega,
          by rw [f5]; omega, by rw [f5, f4]; omega⟩
      · exact h1 l' (by rw [hLeq]; exact List.mem_append_right _ (List.mem_cons_of_mem _ hmem2))
  · intro a' ha'
    exact allocInv_of_core k5 h2 a' ha'
  · intro hop l' hl' hlo'
    have hopS : s.is_open = true := by
      rw [← is_open_congr k1]
      exact hop
    rw [k2] at hlo'
    rw [allocated_quantity_eq_of_core k5]
    rw [k6, hLupd] at hl'
    have hlid : l.id = lid := findLine_id hfl
    have hnods : l.id ∉ L2.map (fun x => x.id) := by
      rw [hLeq] at h4
      rw [List.map_append, List.map_cons] at h4
      exact (List.nodup_cons.mp h4.of_append_right).1
    rcases List.mem_append.mp hl' with hmem | hmem
    · exact h3 hopS l' (by rw [hLeq]; exact List.mem_append_left _ hmem) hlo'
    · rcases List.mem_cons.mp hmem with rfl | hmem2
      · rw [convertLineUpdate_id, f3, f4]
        exact h3 hopS l (findLine_mem hfl) (by rwa [f6] at hlo')
      · exact h3 hopS l'
          (by rw [hLeq]; exact List.mem_append_right _ (List.mem_cons_of_mem _ hmem2)) hlo'
  · rw [k6]
    rw [map_updateFirst _ (fun b _ => convertLineUpdate_id q today b)]
    exact h4

/-- Converted totals, summed per line id. -/
def lineConvertedSum (s : LoanState) (lid : Nat) : Int :=
  sumBy s.lines (fun l => if l.id == lid then l.converted_quantity else 0)

theorem convertApply_convertedSum {lid : Nat} {q : Int} {today : Nat}
    {l : LoanOrderLineItem} {s : LoanState} (hfl : findLine s lid = some l) (lid2 : Nat) :
    lineConvertedSum (convertApply lid q today l s) lid2 =
      lineConvertedSum s lid2 + (if lid == lid2 then q else 0) := by
  obtain ⟨_, _, _, _, _, k6⟩ := @convertApply_facts _ q today _ _ hfl
  have hfl2 : s.lines.find? (fun b => b.id == lid) = some l := hfl
  obtain ⟨L1, L2, hLeq, hLfalse, hLupd⟩ :=
    find?_updateFirst_decomp hfl2 (convertLineUpdate q today)
  obtain ⟨f1, _, _, _, _, _⟩ := convertLineUpdate_fields q today l
  have hlid : l.id = lid := findLine_id hfl
  unfold lineConvertedSum
  rw [k6, hLupd, hLeq]
  simp only [sumBy, List.map_append, List.map_cons, List.sum_append, List.sum_cons]
  rw [convertLineUpdate_id, f1, hlid]
  by_cases hl : (lid == lid2) = true
  · simp only [hl, if_true]
    ring
  · simp only [Bool.not_eq_true] at hl
    simp only [hl, Bool.false_eq_true, if_false]
    ring

/-! ### Sell-returned-items lemmas -/

theorem can_sell_elim {l : LoanOrderLineItem} {q : Int}
    (h : can_sell_returned_items l q = true) :
    0 < q ∧ q ≤ l.available_returned_to_sell := by
  unfold can_sell_returned_items at h
  split at h
  next => simp at h
  next =>
    split at h
    next => simp at h
    next hq =>
      split at h
      next => simp at h
      next hr => exact ⟨lt_of_not_le hq, le_of_not_lt hr⟩

theorem sell_ok_elim {lid : Nat} {q : Int} {s s' : LoanState}
    (h : sell_returned_items lid q s = .ok s') :
    ∃ l, findLine s lid = some l ∧ can_sell_returned_items l q = true ∧
      s' = sellApply lid q l s := by
  unfold sell_returned_items at h
  split at h
  next => simp at h
  next l hfl =>
    split at h
    next => simp at h
    next hcs =>
      dsimp only at h
      split at h
      next => simp at h
      next =>
        refine ⟨l, hfl, ?_, by simpa using h.symm⟩
        cases hcb : can_sell_returned_items l q with
        | true => rfl
        | false => exact absurd (by rw [hcb]; rfl) hcs

theorem sellLineUpdate_id (q : Int) (b : LoanOrderLineItem) :
    (sellLineUpdate q b).id = b.id := rfl

theorem sellApply_facts (lid : Nat) (q : Int) (l : LoanOrderLineItem) (s : LoanState) :
    (sellApply lid q l s).status = s.status ∧
      (sellApply lid q l s).orderId = s.orderId ∧
      (sellApply lid q l s).stocks = s.stocks ∧
      (sellApply lid q l s).allocations = s.allocations ∧
      (sellApply lid q l s).salesAllocations = s.salesAllocations ∧
      (sellApply lid q l s).conversions =
        s.conversions ++ [⟨lid, s.nextSalesLineId, q, true⟩] ∧
      (sellApply lid q l s).lines =
        updateFirst s.lines (fun b => b.id == lid) (sellLineUpdate q) := by
  obtain ⟨e1, e2, e3, e4, e5, e6, e7, e8⟩ := create_or_update_effects l q true s
  obtain ⟨r1, r2⟩ := create_or_update_returned_allocs l q s
  unfold sellApply
  dsimp only
  refine ⟨e5, e6, e3, r1, r2, ?_, ?_⟩
  · rw [e4, create_or_update_snd]
  · rw [e2]

theorem sellApply_stinv {s : LoanState} {lid : Nat} {q : Int} {l : LoanOrderLineItem}
    (hInv : StInv s) (hfl : findLine s lid = some l)
    (hcs : can_sell_returned_items l q = true) : StInv (sellApply lid q l s) := by
  obtain ⟨h1, h2, h3, h4⟩ := hInv
  obtain ⟨k1, k2, k3, k4, k5, k6, k7⟩ := sellApply_facts lid q l s
  obtain ⟨hq, hav⟩ := can_sell_elim hcs
  obtain ⟨c1, c2, c3, c4, c5, c6, c7, c8⟩ := h1 l (findLine_mem hfl)
  have hfl2 : s.lines.find? (fun b => b.id == lid) = some l := hfl
  obtain ⟨L1, L2, hLeq, hLfalse, hLupd⟩ :=
    find?_updateFirst_decomp hfl2 (sellLineUpdate q)
  unfold LoanOrderLineItem.available_returned_to_sell at hav
  refine ⟨?_, ?_, ?_, ?_⟩
  · intro l' hl'
    rw [k7, hLupd] at hl'
    rcases List.mem_append.mp hl' with hmem | hmem
    · exact h1 l' (by rw [hLeq]; exact List.mem_append_left _ hmem)
    · rcases List.mem_cons.mp hmem with rfl | hmem2
      · exact ⟨c1, c2, c3, c4, c5, c6, by dsimp [sellLineUpdate]; omega,
          by dsimp [sellLineUpdate]; omega⟩
      · exact h1 l' (by rw [hLeq]; exact List.mem_append_right _ (List.mem_cons_of_mem _ hmem2))
  · intro a' ha'
    rw [k4] at ha'
    exact h2 a' ha'
  · intro hop l' hl' hlo'
    have hopS : s.is_open = true := by
      rw [← is_open_congr k1]
      exact hop
    rw [k2] at hlo'
    have halloc : ∀ lid2, allocated_quantity (sellApply lid q l s) lid2 =
        allocated_quantity s lid2 := by
      intro lid2
      unfold allocated_quantity
      rw [k4]
    rw [halloc]
    rw [k7, hLupd] at hl'
    rcases List.mem_append.mp hl' with hmem | hmem
    · exact h3 hopS l' (by rw [hLeq]; exact List.mem_append_left _ hmem) hlo'
    · rcases List.mem_cons.mp hmem with rfl | hmem2
      · exact h3 hopS l (findLine_mem hfl) hlo'
      · exact h3 hopS l'
          (by rw [hLeq]; exact List.mem_append_right _ (List.mem_cons_of_mem _ hmem2)) hlo'
  · rw [k7]
    rw [map_updateFirst _ (fun b _ => sellLineUpdate_id q b)]
    exact h4

theorem sellApply_claims {s : LoanState} (lid : Nat) (q : Int) (l : LoanOrderLineItem)
    (hC : ClaimsInv s) : ClaimsInv (sellApply lid q l s) := by
  obtain ⟨_, _, k3, k4, k5, _, _⟩ := sellApply_facts lid q l s
  exact ClaimsInv_transfer hC k4 k3 k5

/-! ### Invariants across all core operations -/

theorem convert_to_sales_order_stinv {lid : Nat} {q : Int} {today : Nat} {s s' : LoanState}
    (h : StInv s) (hok : convert_to_sales_order lid q today s = .ok s') : StInv s' := by
  obtain ⟨l, hfl, hcc, rfl⟩ := convert_ok_elim hok
  exact convertApply_stinv h hfl hcc

theorem sell_returned_items_stinv {lid : Nat} {q : Int} {s s' : LoanState}
    (h : StInv s) (hok : sell_returned_items lid q s = .ok s') : StInv s' := by
  obtain ⟨l, hfl, hcs, rfl⟩ := sell_ok_elim hok
  exact sellApply_stinv h hfl hcs

theorem sell_returned_items_claims {lid : Nat} {q : Int} {s s' : LoanState}
    (hc : ClaimsInv s) (hok : sell_returned_items lid q s = .ok s') : ClaimsInv s' := by
  obtain ⟨l, _, _, rfl⟩ := sell_ok_elim hok
  exact sellApply_claims lid q l hc

theorem applyCoreOp_stinv {op : CoreOp} {s s' : LoanState}
    (h : StInv s) (hok : applyCoreOp op s = .ok s') : StInv s' := by
  cases op with
  | ship items today => exact ship_line_items_stinv h hok
  | returnItems items today => exact return_line_items_stinv h hok
  | returnOrder today => exact return_order_stinv h hok
  | convertLine lid q today => exact convert_to_sales_order_stinv h hok
  | sellReturned lid q => exact sell_returned_items_stinv h hok

/-- Whether a core operation is the line-level loan-to-sale conversion. -/
def CoreOp.isConversion : CoreOp → Bool
  | .convertLine _ _ _ => true
  | _ => false

theorem applyCoreOp_claims {op : CoreOp} {s s' : LoanState}
    (h : StInv s) (hc : ClaimsInv s) (hnc : op.isConversion = false)
    (hok : applyCoreOp op s = .ok s') : ClaimsInv s' := by
  cases op with
  | ship items today => exact ship_line_items_claims h hc hok
  | returnItems items today => exact return_line_items_claims h hc hok
  | returnOrder today => exact return_order_claims h hc hok
  | convertLine lid q today => simp [CoreOp.isConversion] at hnc
  | sellReturned lid q => exact sell_returned_items_claims hc hok

/-! ### Claim C1 -/

/-- Claim C1: for every `LoanOrderLineItem`, after every core operation
(`ship_line_items`, `return_line_items`, `convert_to_sales_order`,
`sell_returned_items`, and the order-level return action `return_order`) the
quantity invariants hold on every line:
`0 ≤ shipped ≤ quantity`, `0 ≤ returned ≤ shipped`,
`0 ≤ converted_quantity ≤ shipped`,
`0 ≤ returned_and_sold_quantity ≤ returned`.
`StInv` is the inductive strengthening these operations maintain: it adds
allocation non-negativity, the `ship_line_items`-established link between a
line's outstanding allocation total and `shipped - returned` while the order
is open, and uniqueness of line keys. -/
theorem C1_line_quantity_invariants (op : CoreOp) (s s' : LoanState)
    (hInv : StInv s) (hok : applyCoreOp op s = .ok s') :
    StInv s' ∧ ∀ l ∈ s'.lines, LineInv l := by
  have h := applyCoreOp_stinv hInv hok
  exact ⟨h, h.1⟩

/-- A concrete run for C1: a partial return of 3 of 5 shipped units. -/
def c1State : LoanState :=
  { orderId := 1, status := .ISSUED,
    issue_date := some 1, ship_date := none, return_date := none,
    lines := [⟨1, 1, 7, 10, 5, 0, 0, 0, .PENDING, none⟩],
    allocations := [⟨1, 1, 1, 5, 0, false, none⟩],
    stocks := [⟨1, 7, 50, false, 0⟩],
    salesAllocations := [], conversions := [],
    nextAllocId := 2, nextSalesAllocId := 1, nextSalesLineId := 1,
    auto_complete := true }

/-- The state after the C1 witness operation. -/
def c1Result : LoanState :=
  match applyCoreOp (.returnItems [⟨1, 3⟩] 9) c1State with
  | .ok s => s
  | .error _ => c1State

theorem C1_witness :
    StInv c1State ∧ applyCoreOp (.returnItems [⟨1, 3⟩] 9) c1State = .ok c1Result ∧
      (StInv c1Result ∧ ∀ l ∈ c1Result.lines, LineInv l) :=
  ⟨by decide, by decide,
    C1_line_quantity_invariants (.returnItems [⟨1, 3⟩] 9) c1State c1Result
      (by decide) (by decide)⟩

/-! ### Claim C10 -/

/-- Claim C10: a successful `convert_to_sales_order` leaves every loan
allocation's `quantity` (and `returned`, `id`, `lineId`, `itemId`) unchanged —
conversion only flips `is_converted` and records the back-reference — so every
line's `allocated_quantity` is the same before and after the conversion:
converted stock still counts toward the line's outstanding loan allocations. -/
theorem C10_convert_preserves_allocations (lid : Nat) (q : Int) (today : Nat)
    (s s' : LoanState) (hok : convert_to_sales_order lid q today s = .ok s') :
    s'.allocations.map allocCore = s.allocations.map allocCore ∧
      ∀ lid2, allocated_quantity s' lid2 = allocated_quantity s lid2 := by
  obtain ⟨l, hfl, _, rfl⟩ := convert_ok_elim hok
  have k5 := (@convertApply_facts _ q today _ _ hfl).2.2.2.2.1
  exact ⟨k5, fun lid2 => allocated_quantity_eq_of_core k5 lid2⟩

/-- A concrete conversion for C10: 60 of 100 on-loan units, one allocation. -/
def c10State : LoanState :=
  { orderId := 1, status := .ISSUED,
    issue_date := some 1, ship_date := none, return_date := none,
    lines := [⟨1, 1, 7, 100, 100, 0, 0, 0, .SHIPPED, none⟩],
    allocations := [⟨1, 1, 1, 100, 0, false, none⟩],
    stocks := [⟨1, 7, 100, false, 0⟩],
    salesAllocations := [], conversions := [],
    nextAllocId := 2, nextSalesAllocId := 1, nextSalesLineId := 1,
    auto_complete := true }

/-- The state after the C10 witness conversion. -/
def c10Result : LoanState :=
  match convert_to_sales_order 1 60 4 c10State with
  | .ok s => s
  | .error _ => c10State

theorem C10_witness :
    convert_to_sales_order 1 60 4 c10State = .ok c10Result ∧
      (c10Result.allocations.map allocCore = c10State.allocations.map allocCore ∧
        ∀ lid2, allocated_quantity c10Result lid2 = allocated_quantity c10State lid2) ∧
      c10Result.allocations.map (fun a => a.is_converted) = [true] ∧
      c10Result.allocations.map (fun a => a.converted_to_sales_allocation) = [some 1] ∧
      allocated_quantity c10Result 1 = 100 :=
  ⟨by decide,
    C10_convert_preserves_allocations 1 60 4 c10State c10Result (by decide),
    by decide, by decide, by decide⟩

/-! ### Claim C6 -/

/-- The line of the C6 scenario: shipped 100, nothing returned or converted. -/
def c6State : LoanState :=
  { orderId := 1, status := .ISSUED,
    issue_date := some 1, ship_date := none, return_date := none,
    lines := [⟨1, 1, 7, 100, 100, 0, 0, 0, .SHIPPED, none⟩],
    allocations := [], stocks := [],
    salesAllocations := [], conversions := [],
    nextAllocId := 1, nextSalesAllocId := 1, nextSalesLineId := 1,
    auto_complete := true }

/-- The state after converting 60 in the C6 scenario. -/
def c6Mid : LoanState :=
  match convert_to_sales_order 1 60 4 c6State with
  | .ok s => s
  | .error _ => c6State

/-- Claim C6: `convert_to_sales_order(line, quantity)` succeeds only when
`quantity ≤ remaining_on_loan` and the order status is ISSUED, SHIPPED or
PARTIAL_RETURN; on success it appends exactly one conversion record and raises
the line's `converted_quantity` by `quantity`.  In particular, on a line with
`shipped = 100`, converting 60 succeeds and then converting 41 is rejected
(only 40 remain), leaving exactly one conversion record. -/
theorem C6_convert_precondition_and_effect :
    (∀ (lid : Nat) (q : Int) (today : Nat) (s s' : LoanState),
      convert_to_sales_order lid q today s = .ok s' →
        (∃ l, findLine s lid = some l ∧ q ≤ l.remaining_on_loan) ∧
        (s.status = .ISSUED ∨ s.status = .SHIPPED ∨ s.status = .PARTIAL_RETURN) ∧
        s'.conversions.length = s.conversions.length + 1 ∧
        (∀ lid2, lineConvertedSum s' lid2 =
          lineConvertedSum s lid2 + (if lid == lid2 then q else 0))) ∧
    convert_to_sales_order 1 60 4 c6State = .ok c6Mid ∧
    c6Mid.conversions.length = 1 ∧
    lineConvertedSum c6Mid 1 = 60 ∧
    convert_to_sales_order 1 41 5 c6Mid = .error "Cannot convert this quantity to sale" := by
  refine ⟨?_, by decide, by decide, by decide, by decide⟩
  intro lid q today s s' hok
  obtain ⟨l, hfl, hcc, rfl⟩ := convert_ok_elim hok
  obtain ⟨_, hrem, hst⟩ := can_convert_elim hcc
  obtain ⟨_, _, _, k4, _, _⟩ := @convertApply_facts _ q today _ _ hfl
  refine ⟨⟨l, hfl, hrem⟩, hst, ?_, fun lid2 => convertApply_convertedSum hfl lid2⟩
  rw [k4]
  simp

theorem C6_witness :
    convert_to_sales_order 1 60 4 c6State = .ok c6Mid ∧
      (∃ l, findLine c6State 1 = some l ∧ (60 : Int) ≤ l.remaining_on_loan) ∧
      c6Mid.conversions.length = c6State.conversions.length + 1 :=
  ⟨by decide,
    (C6_convert_precondition_and_effect.1 1 60 4 c6State c6Mid (by decide)).1,
    (C6_convert_precondition_and_effect.1 1 60 4 c6State c6Mid (by decide)).2.2.1⟩

/-! ### Claim C8 -/

/-- The C8 state: one line with 100 on loan, nothing converted yet. -/
def c8State : LoanState :=
  { orderId := 1, status := .ISSUED,
    issue_date := some 1, ship_date := none, return_date := none,
    lines := [⟨1, 1, 7, 100, 100, 0, 0, 0, .SHIPPED, none⟩],
    allocations := [], stocks := [],
    salesAllocations := [], conversions := [],
    nextAllocId := 1, nextSalesAllocId := 1, nextSalesLineId := 1,
    auto_complete := true }

/-- The C8 batch: two items that together over-draw the same line. -/
def c8Batch : List ConvertItem := [⟨1, 60⟩, ⟨1, 60⟩]

/-- Claim C8 evaluated at its failing input: the batch passes `validate_items`
(each item alone is within the line's available quantity in the pre-batch
state), processing fails at item 2, and the mutation of item 1 persists in the
committed state — `converted_quantity` is 60, not 0, and one conversion record
of the failed batch exists.  The batch is therefore not all-or-nothing. -/
theorem C8_batch_convert_not_atomic :
    validate_items c8State c8Batch = .ok () ∧
    lineConvertedSum c8State 1 = 0 ∧
    c8State.conversions.length = 0 ∧
    (convert_items_batch c8Batch 4 c8State).2.isSome = true ∧
    lineConvertedSum (convert_items_batch c8Batch 4 c8State).1 1 = 60 ∧
    (convert_items_batch c8Batch 4 c8State).1.conversions.length = 1 := by
  refine ⟨by decide, by decide, by decide, by decide, by decide, by decide⟩

/-! ### Claim C2 -/

/-- Claim C2 (amended): the stock over-allocation bound is enforced at
loan-allocation-creation time — a new allocation that passes
`LoanOrderAllocation.clean` keeps the unit's total claims (builds + sales +
loans) within its physical quantity, and every core operation except the
line-level conversion preserves the bound on every stock unit; a violating
ship item makes the whole (atomic) batch fail, so nothing is committed.
Conversion itself does not preserve the bound (see the counterexample). -/
theorem C2_allocation_bound_amended :
    (∀ (s : LoanState) (a : LoanOrderAllocation) (st : StockItem),
      allocation_clean_ok s a = true → findStock s a.itemId = some st →
      total_allocation_claims { s with allocations := s.allocations ++ [a] } st ≤
        st.quantity) ∧
    (∀ (op : CoreOp) (s s' : LoanState), StInv s → ClaimsInv s →
      op.isConversion = false → applyCoreOp op s = .ok s' →
      ∀ st ∈ s'.stocks, total_allocation_claims s' st ≤ st.quantity) := by
  constructor
  · intro s a st hclean hfs
    unfold allocation_clean_ok at hclean
    rw [hfs] at hclean
    cases hfl : findLine s a.lineId with
    | none => rw [hfl] at hclean; simp at hclean
    | some l =>
      rw [hfl] at hclean
      dsimp only at hclean
      rw [Bool.and_eq_true, Bool.and_eq_true, Bool.and_eq_true] at hclean
      have hbound : ¬(st.quantity <
          st.build_allocation + sales_order_allocation_count s a.itemId +
            loan_allocation_count s a.itemId + a.quantity) := by
        have := hclean.1.1.2
        simpa using this
      have hid : st.id = a.itemId := findStock_id hfs
      unfold total_allocation_claims sales_order_allocation_count loan_allocation_count
      dsimp only
      rw [sumBy_append_singleton]
      rw [hid]
      have hself : (a.itemId == a.itemId) = true := beq_self_eq_true _
      rw [hself]
      unfold sales_order_allocation_count loan_allocation_count at hbound
      simp only [if_true]
      omega
  · intro op s s' h hc hnc hok
    exact (applyCoreOp_claims h hc hnc hok).2

/-- The C2 counterexample state: a stock unit of quantity 100 fully allocated
to a loan line that has shipped 100. -/
def c2State : LoanState :=
  { orderId := 1, status := .ISSUED,
    issue_date := some 1, ship_date := none, return_date := none,
    lines := [⟨1, 1, 7, 100, 100, 0, 0, 0, .SHIPPED, none⟩],
    allocations := [⟨1, 1, 1, 100, 0, false, none⟩],
    stocks := [⟨1, 7, 100, false, 0⟩],
    salesAllocations := [], conversions := [],
    nextAllocId := 2, nextSalesAllocId := 1, nextSalesLineId := 1,
    auto_complete := true }

/-- The stock unit of the C2 counterexample. -/
def c2Stock : StockItem := ⟨1, 7, 100, false, 0⟩

/-- The state after converting 60 units of the fully-allocated line. -/
def c2After : LoanState :=
  match convert_to_sales_order 1 60 4 c2State with
  | .ok s => s
  | .error _ => c2State

/-- Claim C2 as stated is false: the bound holds before the conversion, the
conversion succeeds, and afterwards the unit's total active claims are
160 > 100 — the created sales allocation double-counts stock whose loan
allocation quantity is left unchanged, and nothing rejects it. -/
theorem C2_counterexample :
    StInv c2State ∧ ClaimsInv c2State ∧
    convert_to_sales_order 1 60 4 c2State = .ok c2After ∧
    c2Stock ∈ c2After.stocks ∧
    total_allocation_claims c2After c2Stock = 160 ∧
    c2Stock.quantity = 100 ∧
    ¬ ClaimsInv c2After := by
  refine ⟨by decide, by decide, by decide, by decide, by decide, by decide, by decide⟩

/-- A concrete instance of the amended C2: a fresh allocation of 40 next to an
existing allocation of 50 on a unit of 100 passes `clean` and keeps total
claims at 90. -/
def c2wState : LoanState :=
  { orderId := 1, status := .ISSUED,
    issue_date := some 1, ship_date := none, return_date := none,
    lines := [⟨1, 1, 7, 100, 50, 0, 0, 0, .PENDING, none⟩],
    allocations := [⟨1, 1, 1, 50, 0, false, none⟩],
    stocks := [⟨1, 7, 100, false, 0⟩],
    salesAllocations := [], conversions := [],
    nextAllocId := 2, nextSalesAllocId := 1, nextSalesLineId := 1,
    auto_complete := true }

/-- The candidate allocation of the C2 witness. -/
def c2wAlloc : LoanOrderAllocation := ⟨2, 1, 1, 40, 0, false, none⟩

theorem C2_witness :
    allocation_clean_ok c2wState c2wAlloc = true ∧
      findStock c2wState c2wAlloc.itemId = some c2Stock ∧
      total_allocation_claims
        { c2wState with allocations := c2wState.allocations ++ [c2wAlloc] } c2Stock ≤
        c2Stock.quantity :=
  ⟨by decide, by decide,
    C2_allocation_bound_amended.1 c2wState c2wAlloc c2Stock (by decide) (by decide)⟩

/-! ### Claim C3 -/

theorem approve_order_ok {s s' : LoanState} (hok : approve_order s = .ok s') :
    s' = s.action_approve := by
  unfold approve_order at hok
  split at hok
  · simp at hok
  · split at hok
    · simp at hok
    · simpa using hok.symm

theorem hold_order_ok {s s' : LoanState} (hok : hold_order s = .ok s') :
    s' = s.action_hold := by
  unfold hold_order at hok
  split at hok
  · simp at hok
  · simpa using hok.symm

theorem cancel_order_ok {s s' : LoanState} (hok : cancel_order s = .ok s') :
    s' = s.action_cancel := by
  unfold cancel_order at hok
  split at hok
  · simp at hok
  · simpa using hok.symm

theorem convert_to_sale_ok {s s' : LoanState} (hok : convert_to_sale s = .ok s') :
    s' = s.action_convert := by
  unfold convert_to_sale at hok
  split at hok
  · simp at hok
  · simpa using hok.symm

theorem write_off_order_ok {s s' : LoanState} (hok : write_off_order s = .ok s') :
    s' = s.action_write_off := by
  unfold write_off_order at hok
  split at hok
  · simp at hok
  · simpa using hok.symm

theorem can_convert_order_status {s : LoanState}
    (h : s.can_convert_to_sale_order = true) :
    s.status = .ISSUED ∨ s.status = .SHIPPED ∨ s.status = .PARTIAL_RETURN := by
  unfold LoanState.can_convert_to_sale_order at h
  rw [Bool.and_eq_true] at h
  cases hs : s.status <;> rw [hs] at h <;> simp_all

theorem can_write_off_status {s : LoanState} (h : s.can_write_off = true) :
    s.status = .ISSUED ∨ s.status = .SHIPPED ∨ s.status = .PARTIAL_RETURN := by
  unfold LoanState.can_write_off at h
  rw [Bool.and_eq_true] at h
  cases hs : s.status <;> rw [hs] at h <;> simp_all

/-- Claim C3 (amended): every named status action either leaves the order
status unchanged (the call is rejected or its guard makes it a no-op) or
moves it along an edge of `ALLOWED_TRANSITIONS` — except for the shipped-line
resolution of `issue_order`, which is excluded by hypothesis: when no line of
the order already carries SHIPPED status, or the order is ON_HOLD (the
resume-from-hold case the table licenses), `issue_order` also respects the
table.  The counterexample shows the excluded case genuinely violates the
table. -/
theorem C3_transitions_amended (a : OrderAction) (today : Nat) (s s' : LoanState)
    (hissue : a = .issueOrder →
      ((∀ l ∈ s.lines, l.orderId = s.orderId → l.status ≠ .SHIPPED) ∨
        s.status = .ON_HOLD))
    (hok : applyOrderAction a today s = .ok s') :
    s'.status = s.status ∨ s'.status ∈ ALLOWED_TRANSITIONS s.status := by
  cases a with
  | approveOrder =>
    rw [approve_order_ok hok]
    unfold LoanState.action_approve
    split
    next hg =>
      right
      have hst := (can_approve_iff s).mp hg
      dsimp only
      rw [hst]
      decide
    next => left; rfl
  | issueOrder =>
    rw [issue_order_ok hok]
    unfold LoanState.action_issue
    split
    next hg =>
      right
      dsimp only
      by_cases hsh : (s.ownLines.any fun l => l.status == LoanOrderLineStatus.SHIPPED) = true
      · rcases hissue rfl with hnone | honh
        · exfalso
          obtain ⟨l, hl, hls⟩ := List.any_eq_true.mp hsh
          have hmem := List.mem_filter.mp hl
          exact hnone l hmem.1 (beq_iff_eq.mp hmem.2) (beq_iff_eq.mp hls)
        · rw [hsh, honh]
          decide
      · rw [Bool.not_eq_true] at hsh
        rw [hsh]
        rcases (can_issue_iff s).mp hg with hst | hst | hst <;> rw [hst] <;> decide
    next => left; rfl
  | holdOrder =>
    rw [hold_order_ok hok]
    unfold LoanState.action_hold
    split
    next hg =>
      right
      dsimp only
      rcases (can_hold_iff s).mp hg with hst | hst | hst <;> rw [hst] <;> decide
    next => left; rfl
  | cancelOrder =>
    rw [cancel_order_ok hok]
    unfold LoanState.action_cancel
    split
    next hg =>
      right
      dsimp only
      rcases (can_cancel_iff s).mp hg with hst | hst <;> rw [hst] <;> decide
    next => left; rfl
  | returnOrderAction =>
    rw [return_order_ok hok]
    unfold LoanState.action_return
    split
    next hg =>
      right
      dsimp only
      rcases can_return_status hg with hst | hst | hst <;> rw [hst] <;> decide
    next => left; rfl
  | convertToSale =>
    rw [convert_to_sale_ok hok]
    unfold LoanState.action_convert
    split
    next hg =>
      right
      dsimp only
      rcases can_convert_order_status hg with hst | hst | hst <;> rw [hst] <;> decide
    next => left; rfl
  | writeOffOrder =>
    rw [write_off_order_ok hok]
    unfold LoanState.action_write_off
    split
    next hg =>
      right
      dsimp only
      rcases can_write_off_status hg with hst | hst | hst <;> rw [hst] <;> decide
    next => left; rfl

/-- The C3 counterexample state: an APPROVED order that already has a line
with SHIPPED status. -/
def c3State : LoanState :=
  { orderId := 1, status := .APPROVED,
    issue_date := none, ship_date := none, return_date := none,
    lines := [⟨1, 1, 7, 10, 10, 0, 0, 0, .SHIPPED, none⟩],
    allocations := [], stocks := [],
    salesAllocations := [], conversions := [],
    nextAllocId := 1, nextSalesAllocId := 1, nextSalesLineId := 1,
    auto_complete := true }

/-- The state after issuing the C3 counterexample order. -/
def c3After : LoanState :=
  match applyOrderAction .issueOrder 3 c3State with
  | .ok s => s
  | .error _ => c3State

/-- Claim C3 as stated is false: `issue_order` on an APPROVED order with an
already-shipped line succeeds and resolves the status to SHIPPED, but
SHIPPED is not an allowed target from APPROVED in `ALLOWED_TRANSITIONS`, and
the status did change. -/
theorem C3_counterexample :
    c3State.status = .APPROVED ∧
    applyOrderAction .issueOrder 3 c3State = .ok c3After ∧
    c3After.status = .SHIPPED ∧
    c3After.status ∉ ALLOWED_TRANSITIONS c3State.status ∧
    c3After.status ≠ c3State.status := by
  refine ⟨by decide, by decide, by decide, by decide, by decide⟩

/-- The C3 witness state: a PENDING order with one line. -/
def c3wState : LoanState :=
  { orderId := 1, status := .PENDING,
    issue_date := none, ship_date := none, return_date := none,
    lines := [⟨1, 1, 7, 10, 0, 0, 0, 0, .PENDING, none⟩],
    allocations := [], stocks := [],
    salesAllocations := [], conversions := [],
    nextAllocId := 1, nextSalesAllocId := 1, nextSalesLineId := 1,
    auto_complete := true }

/-- The state after cancelling the C3 witness order. -/
def c3wAfter : LoanState :=
  match applyOrderAction .cancelOrder 0 c3wState with
  | .ok s => s
  | .error _ => c3wState

theorem C3_witness :
    applyOrderAction .cancelOrder 0 c3wState = .ok c3wAfter ∧
      (c3wAfter.status = c3wState.status ∨
        c3wAfter.status ∈ ALLOWED_TRANSITIONS c3wState.status) :=
  ⟨by decide,
    C3_transitions_amended .cancelOrder 0 c3wState c3wAfter
      (by intro h; exact absurd h (by decide)) (by decide)⟩

/-! ### Claim C4 -/

theorem lineShippedSum_congr {s1 s2 : LoanState} (h : s1.lines = s2.lines) (lid : Nat) :
    lineShippedSum s1 lid = lineShippedSum s2 lid := by
  unfold lineShippedSum
  rw [h]

theorem flag_congr {s1 s2 : LoanState} (h : s1.lines = s2.lines) {lid : Nat}
    (hf : lineFullyShippedFlag s2 lid) : lineFullyShippedFlag s1 lid := by
  intro l hl
  rw [h] at hl
  exact hf l hl

/-- Claim C4: `ship_line_items` processes each item in order and rejects the
whole batch (atomically, nothing committed) unless every item, at its point in
the sequence, names a line of this order, has positive quantity within the
line's remaining quantity, and fits the stock unit's unallocated quantity —
this is the per-item success characterization `shipItemCond`.  On success each
line's shipped total grows by the sum of its items' quantities, every line
targeted by the batch carries SHIPPED status once `shipped >= quantity`, and
an order that was ISSUED with at least one fully-shipped line afterwards is
auto-transitioned to SHIPPED with `ship_date` stamped. -/
theorem C4_ship_line_items :
    (∀ (s : LoanState) (it : ShipItem), (shipOne s it).isOk = true ↔ shipItemCond s it) ∧
    (∀ (items : List ShipItem) (today : Nat) (s s' : LoanState), StInv s →
      ship_line_items items today s = .ok s' →
        (∀ lid, lineShippedSum s' lid = lineShippedSum s lid +
          sumBy items (fun it => if it.lineId == lid then it.quantity else 0)) ∧
        (∀ it ∈ items, ∀ l ∈ s'.lines, l.id = it.lineId →
          l.quantity ≤ l.shipped → l.status = .SHIPPED) ∧
        (s.status = .ISSUED →
          (∃ l ∈ s'.lines, l.orderId = s'.orderId ∧ l.status = .SHIPPED) →
          s'.status = .SHIPPED ∧ s'.ship_date.isSome = true)) := by
  refine ⟨shipOne_isOk_iff, ?_⟩
  intro items today s s' hInv hok
  obtain ⟨s1, s2, hpre, hloop, hpost⟩ := ship_line_items_ok_elim hok
  have hlines1 : s1.lines = s.lines := by
    rcases hpre with ⟨_, rfl⟩ | ⟨_, _, hiss⟩
    · rfl
    · rw [issue_order_ok hiss]
      exact (action_issue_frame s today).2.1
  have hInv1 : StInv s1 := by
    rcases hpre with ⟨_, rfl⟩ | ⟨_, _, hiss⟩
    · exact hInv
    · exact issue_order_stinv hInv hiss
  have hlines' : s'.lines = s2.lines := by
    rcases hpost with ⟨_, rfl⟩ | ⟨_, rfl⟩ <;> rfl
  refine ⟨?_, ?_, ?_⟩
  · intro lid
    rw [lineShippedSum_congr hlines', shipLoop_shippedSum hloop lid,
      lineShippedSum_congr hlines1]
  · intro it hit
    exact flag_congr hlines' (shipLoop_flag hInv1 hloop it hit)
  · intro hISS hex
    have hs1 : s1 = s := by
      rcases hpre with ⟨_, rfl⟩ | ⟨hc1, _, _⟩
      · rfl
      · rw [hISS] at hc1
        exact absurd hc1 (by decide)
    have hst2 : s2.status = .ISSUED := by
      rw [(shipLoop_frame hloop).1, hs1, hISS]
    have horder2 : s'.orderId = s2.orderId := by
      rcases hpost with ⟨_, rfl⟩ | ⟨_, rfl⟩ <;> rfl
    obtain ⟨l, hl, hlo, hls⟩ := hex
    have hany : (s2.ownLines.any fun x => x.status == LoanOrderLineStatus.SHIPPED) = true := by
      refine List.any_eq_true.mpr ⟨l, ?_, beq_iff_eq.mpr hls⟩
      refine List.mem_filter.mpr ⟨by rw [← hlines']; exact hl, ?_⟩
      rw [horder2] at hlo
      exact beq_iff_eq.mpr hlo
    have hcond : (s2.status == LoanOrderStatus.ISSUED &&
        (s2.ownLines.any fun x => x.status == LoanOrderLineStatus.SHIPPED)) = true := by
      rw [Bool.and_eq_true]
      exact ⟨beq_iff_eq.mpr hst2, hany⟩
    rcases hpost with ⟨_, rfl⟩ | ⟨hcf, _⟩
    · exact ⟨rfl, rfl⟩
    · rw [hcond] at hcf
      cases hcf

/-- The C4 witness state: an ISSUED order with one line of quantity 5 and a
stock unit of quantity 10. -/
def c4State : LoanState :=
  { orderId := 1, status := .ISSUED,
    issue_date := some 1, ship_date := none, return_date := none,
    lines := [⟨1, 1, 7, 5, 0, 0, 0, 0, .PENDING, none⟩],
    allocations := [],
    stocks := [⟨1, 7, 10, false, 0⟩],
    salesAllocations := [], conversions := [],
    nextAllocId := 1, nextSalesAllocId := 1, nextSalesLineId := 1,
    auto_complete := true }

/-- The C4 witness batch: ship the full line quantity from the stock unit. -/
def c4Items : List ShipItem := [⟨1, 1, 5⟩]

/-- The state after the C4 witness shipment. -/
def c4After : LoanState :=
  match ship_line_items c4Items 7 c4State with
  | .ok s => s
  | .error _ => c4State

theorem C4_witness :
    StInv c4State ∧ ship_line_items c4Items 7 c4State = .ok c4After ∧
      c4After.status = .SHIPPED ∧ c4After.ship_date.isSome = true := by
  have h := (C4_ship_line_items.2 c4Items 7 c4State c4After (by decide) (by decide)).2.2
    (by decide) (by decide)
  exact ⟨by decide, by decide, h.1, h.2⟩

/-! ### Claim C5 -/

/-- Claim C5 (amended): every successful `return_order` call lands in one of
two cases, decided by the `can_return` guard.  When the guard is false the
call is a silent no-op: it succeeds with the state completely unchanged (no
RETURNED status, no `return_date`).  When the guard holds, the order status
becomes RETURNED with `return_date` set, and every non-complete, non-problem
line with `shipped > 0` is force-closed — `returned` raised to `shipped` if
short and line status set RETURNED.  For each outstanding allocation
(`quantity > 0`) on such a line, however, the code settles it only when
`returned < quantity`: then `returned` is raised to the old `quantity` (an
increase of `quantity - returned`, not of the full outstanding quantity) and
`quantity` becomes 0; an outstanding allocation with `returned >= quantity`
is left entirely unchanged, its quantity staying positive. -/
theorem C5_return_order_amended (today : Nat) (s s' : LoanState)
    (hok : return_order today s = .ok s') :
    (s.can_return = false → s' = s) ∧
    (s.can_return = true →
      s'.status = .RETURNED ∧ s'.return_date = some today ∧
      (∀ l ∈ s.lines, returnCascadeLine s l = true →
        ∃ l' ∈ s'.lines, l'.id = l.id ∧
          l'.returned = (if l.returned < l.shipped then l.shipped else l.returned) ∧
          l'.status = .RETURNED) ∧
      (∀ a ∈ s.allocations,
        ((match findLine s a.lineId with
          | some l => returnCascadeLine s l
          | none => false) && decide (0 < a.quantity)) = true →
        ∃ a' ∈ s'.allocations, a'.id = a.id ∧
          (a.returned < a.quantity → a'.returned = a.quantity ∧ a'.quantity = 0) ∧
          (¬ a.returned < a.quantity → a' = a))) := by
  constructor
  · intro hcr
    rw [return_order_ok hok]
    unfold LoanState.action_return
    simp [hcr]
  · intro hcr
    rw [return_order_ok hok]
    unfold LoanState.action_return
    rw [if_pos hcr]
    refine ⟨rfl, rfl, ?_, ?_⟩
    · intro l hl hcas
      refine ⟨_, List.mem_map_of_mem _ hl, ?_⟩
      rw [if_pos hcas]
      exact ⟨rfl, rfl, rfl⟩
    · intro a ha hproc
      refine ⟨_, List.mem_map_of_mem _ ha, ?_⟩
      rw [if_pos hproc]
      by_cases hrem : 0 < a.quantity - a.returned
      · rw [if_pos hrem]
        refine ⟨rfl, fun _ => ⟨by dsimp; omega, rfl⟩, fun hn => absurd (by omega) hn⟩
      · rw [if_neg hrem]
        exact ⟨rfl, fun hlt => absurd (by omega : 0 < a.quantity - a.returned) hrem,
          fun _ => rfl⟩

/-- The C5 counterexample state: a shipped, partially returned line whose
allocation has `returned = 6 > quantity = 4` (reachable by shipping 10 and
returning 6 through `return_line_items`). -/
def c5State : LoanState :=
  { orderId := 1, status := .ISSUED,
    issue_date := some 1, ship_date := none, return_date := none,
    lines := [⟨1, 1, 7, 20, 10, 6, 0, 0, .SHIPPED, none⟩],
    allocations := [⟨1, 1, 1, 4, 6, false, none⟩],
    stocks := [⟨1, 7, 100, false, 0⟩],
    salesAllocations := [], conversions := [],
    nextAllocId := 2, nextSalesAllocId := 1, nextSalesLineId := 1,
    auto_complete := true }

/-- The state after the C5 counterexample `return_order`. -/
def c5After : LoanState :=
  match return_order 9 c5State with
  | .ok s => s
  | .error _ => c5State

/-- Claim C5 as stated is false: `return_order` succeeds, the line is
force-closed, and its outstanding allocation (`quantity = 4 > 0`) is NOT
fully settled — `returned` does not increase by the outstanding 4 and
`quantity` stays 4 instead of becoming 0, because the code computes
`remaining = quantity - returned = -2 <= 0` and skips the allocation. -/
theorem C5_counterexample :
    return_order 9 c5State = .ok c5After ∧
    (⟨1, 1, 1, 4, 6, false, none⟩ : LoanOrderAllocation) ∈ c5State.allocations ∧
    returnCascadeLine c5State ⟨1, 1, 7, 20, 10, 6, 0, 0, .SHIPPED, none⟩ = true ∧
    (0 : Int) < 4 ∧
    c5After.allocations = [⟨1, 1, 1, 4, 6, false, none⟩] ∧
    c5After.lines.map (fun l => l.returned) = [10] := by
  refine ⟨by decide, by decide, by decide, by decide, by decide, by decide⟩

/-- The C5 witness state: shipped 10, returned 4, allocation (6 outstanding,
4 returned). -/
def c5wState : LoanState :=
  { orderId := 1, status := .ISSUED,
    issue_date := some 1, ship_date := none, return_date := none,
    lines := [⟨1, 1, 7, 10, 10, 4, 0, 0, .SHIPPED, none⟩],
    allocations := [⟨1, 1, 1, 6, 4, false, none⟩],
    stocks := [⟨1, 7, 100, false, 0⟩],
    salesAllocations := [], conversions := [],
    nextAllocId := 2, nextSalesAllocId := 1, nextSalesLineId := 1,
    auto_complete := true }

/-- The state after the C5 witness `return_order`. -/
def c5wAfter : LoanState :=
  match return_order 9 c5wState with
  | .ok s => s
  | .error _ => c5wState

theorem C5_witness :
    c5wState.can_return = true ∧ return_order 9 c5wState = .ok c5wAfter ∧
      c5wAfter.status = .RETURNED ∧ c5wAfter.return_date = some 9 := by
  have h := (C5_return_order_amended 9 c5wState c5wAfter (by decide)).2 (by decide)
  exact ⟨by decide, by decide, h.1, h.2.1⟩

/-! ### Claim C7 -/

/-- Claim C7 (amended): after a successful `return_line_items` batch, with
`s1` the state right after the item loop (order status unchanged by the
loop): if the order has zero pending lines, it auto-transitions to RETURNED
when the auto-complete setting is on and the return guard holds, and stays
exactly as it was when the setting is off; if it has both completed and
pending lines, it becomes PARTIAL_RETURN only when its status is ISSUED or
SHIPPED — an order in any other open status (for example ON_HOLD) keeps its
status unchanged. -/
theorem C7_after_return_batch (items : List ReturnItem) (today : Nat)
    (s s' : LoanState) (hok : return_line_items items today s = .ok s') :
    ∃ s1, returnLoop items s = .ok s1 ∧ s1.status = s.status ∧
      (s1.pending_line_count = 0 →
        (s1.auto_complete = true → s1.can_return = true →
          s'.status = .RETURNED ∧ s'.return_date = some today) ∧
        (s1.auto_complete = false → s' = s1)) ∧
      (0 < s1.completed_line_count → 0 < s1.pending_line_count →
        ((s1.status = .ISSUED ∨ s1.status = .SHIPPED) → s'.status = .PARTIAL_RETURN) ∧
        (¬(s1.status = .ISSUED ∨ s1.status = .SHIPPED) → s' = s1)) := by
  obtain ⟨hop, s1, hloop, hpost⟩ := return_line_items_ok_elim hok
  have hst1 : s1.status = s.status := (returnLoop_frame hloop).1
  have hop1 : s1.is_open = true := by
    rw [is_open_congr hst1]
    exact hop
  refine ⟨s1, hloop, hst1, ?_, ?_⟩
  · intro hpend0
    have hc1true : (s1.pending_line_count == 0 && s1.is_open) = true := by
      rw [Bool.and_eq_true]
      exact ⟨beq_iff_eq.mpr hpend0, hop1⟩
    rcases hpost with ⟨_, hsub⟩ | ⟨hc1f, _, _⟩ | ⟨hc1f, _, _⟩
    · constructor
      · intro hauto hcr
        rcases hsub with ⟨_, hret⟩ | ⟨hnauto, _⟩
        · rw [return_order_ok hret]
          unfold LoanState.action_return
          rw [if_pos hcr]
          exact ⟨rfl, rfl⟩
        · rw [hauto] at hnauto
          cases hnauto
      · intro hnauto
        rcases hsub with ⟨hauto, _⟩ | ⟨_, rfl⟩
        · rw [hnauto] at hauto
          cases hauto
        · rfl
    · rw [hc1true] at hc1f
      cases hc1f
    · rw [hc1true] at hc1f
      cases hc1f
  · intro hcomp hpend
    rcases hpost with ⟨hc1, _⟩ | ⟨_, _, hsub⟩ | ⟨_, hc2f, _⟩
    · rw [Bool.and_eq_true] at hc1
      have := beq_iff_eq.mp hc1.1
      omega
    · rcases hsub with ⟨hc3, rfl⟩ | ⟨hc3f, rfl⟩
      · constructor
        · intro _
          rfl
        · intro hn
          exfalso
          apply hn
          cases hs : s1.status <;> rw [hs] at hc3 <;> simp_all
      · constructor
        · intro hd
          exfalso
          rcases hd with hst | hst <;> rw [hst] at hc3f <;> exact absurd hc3f (by decide)
        · intro _
          rfl
    · have hc2t : (decide (0 < s1.completed_line_count) &&
          decide (0 < s1.pending_line_count)) = true := by
        rw [Bool.and_eq_true]
        exact ⟨decide_eq_true hcomp, decide_eq_true hpend⟩
      rw [hc2t] at hc2f
      cases hc2f

/-- The C7 counterexample state: an ON_HOLD order with one fully-shipped line
(allocated 5 of stock unit 1) and one pending line. -/
def c7State : LoanState :=
  { orderId := 1, status := .ON_HOLD,
    issue_date := some 1, ship_date := some 2, return_date := none,
    lines := [⟨1, 1, 7, 5, 5, 0, 0, 0, .SHIPPED, none⟩,
              ⟨2, 1, 7, 5, 0, 0, 0, 0, .PENDING, none⟩],
    allocations := [⟨1, 1, 1, 5, 0, false, none⟩],
    stocks := [⟨1, 7, 10, false, 0⟩],
    salesAllocations := [], conversions := [],
    nextAllocId := 2, nextSalesAllocId := 1, nextSalesLineId := 1,
    auto_complete := true }

/-- The state after returning all 5 units of line 1 of the C7 counterexample. -/
def c7After : LoanState :=
  match return_line_items [⟨1, 5⟩] 9 c7State with
  | .ok s => s
  | .error _ => c7State

/-- Claim C7 as stated is false: after a successful batch the order has both a
completed and a pending line, yet its status stays ON_HOLD instead of
becoming PARTIAL_RETURN, because the code only derives PARTIAL_RETURN from
ISSUED or SHIPPED. -/
theorem C7_counterexample :
    c7State.status = .ON_HOLD ∧
    return_line_items [⟨1, 5⟩] 9 c7State = .ok c7After ∧
    0 < c7After.completed_line_count ∧
    0 < c7After.pending_line_count ∧
    c7After.status = .ON_HOLD ∧
    c7After.status ≠ .PARTIAL_RETURN := by
  refine ⟨by decide, by decide, by decide, by decide, by decide, by decide⟩

/-- The C7 witness state: same layout but ISSUED. -/
def c7wState : LoanState :=
  { orderId := 1, status := .ISSUED,
    issue_date := some 1, ship_date := some 2, return_date := none,
    lines := [⟨1, 1, 7, 5, 5, 0, 0, 0, .SHIPPED, none⟩,
              ⟨2, 1, 7, 5, 0, 0, 0, 0, .PENDING, none⟩],
    allocations := [⟨1, 1, 1, 5, 0, false, none⟩],
    stocks := [⟨1, 7, 10, false, 0⟩],
    salesAllocations := [], conversions := [],
    nextAllocId := 2, nextSalesAllocId := 1, nextSalesLineId := 1,
    auto_complete := true }

/-- The C7 witness batch. -/
def c7wItems : List ReturnItem := [⟨1, 5⟩]

/-- The C7 witness state right after the item loop. -/
def c7wMid : LoanState :=
  match returnLoop c7wItems c7wState with
  | .ok s => s
  | .error _ => c7wState

/-- The C7 witness final state. -/
def c7wAfter : LoanState :=
  match return_line_items c7wItems 9 c7wState with
  | .ok s => s
  | .error _ => c7wState

theorem C7_witness :
    return_line_items c7wItems 9 c7wState = .ok c7wAfter ∧
      c7wAfter.status = .PARTIAL_RETURN := by
  refine ⟨by decide, ?_⟩
  obtain ⟨s1, hloop, _, _, hB⟩ :=
    C7_after_return_batch c7wItems 9 c7wState c7wAfter (by decide)
  have hs1 : s1 = c7wMid := by
    have h2 : returnLoop c7wItems c7wState = .ok c7wMid := by decide
    rw [hloop] at h2
    simpa using h2
  subst hs1
  exact (hB (by decide) (by decide)).1 (by decide)

/-! ### Claim C9 -/

/-- Claim C9 (amended): `cancel_order` moves the order to CANCELLED exactly
from PENDING or ON_HOLD.  From APPROVED — which the transition table allows
but the `can_cancel` guard does not — the call raises no error and changes
nothing (a silent no-op, not the failure the claim describes).  From every
other status the call fails with an error, leaving the status unchanged. -/
theorem C9_cancel_only_pending_on_hold (s s' : LoanState) :
    (cancel_order s = .ok s' →
      ((s.status = .PENDING ∨ s.status = .ON_HOLD) ∧ s'.status = .CANCELLED) ∨
        (s.status = .APPROVED ∧ s' = s)) ∧
    (s.status ≠ .PENDING → s.status ≠ .ON_HOLD → s.status ≠ .APPROVED →
      cancel_order s = .error "Cannot cancel order from current status") := by
  constructor
  · intro hok
    have hs' := cancel_order_ok hok
    have hval : s.validate_transition .CANCELLED = true := by
      unfold cancel_order at hok
      split at hok
      next => simp at hok
      next hv =>
        cases hvb : s.validate_transition .CANCELLED with
        | true => rfl
        | false => exact absurd (by rw [hvb]; rfl) hv
    have hstat : s.status = .PENDING ∨ s.status = .APPROVED ∨ s.status = .ON_HOLD := by
      unfold LoanState.validate_transition at hval
      cases hs : s.status
      case PENDING => exact Or.inl rfl
      case APPROVED => exact Or.inr (Or.inl rfl)
      case ON_HOLD => exact Or.inr (Or.inr rfl)
      all_goals (rw [hs] at hval; exact absurd hval (by decide))
    rcases hstat with hs | hs | hs
    · left
      refine ⟨Or.inl hs, ?_⟩
      rw [hs']
      have hcc : s.can_cancel = true := by
        unfold LoanState.can_cancel
        rw [hs]
        decide
      simp [LoanState.action_cancel, hcc]
    · right
      refine ⟨hs, ?_⟩
      rw [hs']
      have hcc : s.can_cancel = false := by
        unfold LoanState.can_cancel
        rw [hs]
        decide
      simp [LoanState.action_cancel, hcc]
    · left
      refine ⟨Or.inr hs, ?_⟩
      rw [hs']
      have hcc : s.can_cancel = true := by
        unfold LoanState.can_cancel
        rw [hs]
        decide
      simp [LoanState.action_cancel, hcc]
  · intro h1 h2 h3
    have hval : s.validate_transition .CANCELLED = false := by
      unfold LoanState.validate_transition
      cases hs : s.status <;>
        first
          | exact absurd hs h1
          | exact absurd hs h2
          | exact absurd hs h3
          | decide
    simp [cancel_order, hval]

/-- The C9 counterexample state: an APPROVED order. -/
def c9State : LoanState :=
  { orderId := 1, status := .APPROVED,
    issue_date := none, ship_date := none, return_date := none,
    lines := [⟨1, 1, 7, 10, 0, 0, 0, 0, .PENDING, none⟩],
    allocations := [], stocks := [],
    salesAllocations := [], conversions := [],
    nextAllocId := 1, nextSalesAllocId := 1, nextSalesLineId := 1,
    auto_complete := true }

/-- Claim C9 as stated is false: cancelling an APPROVED order does not fail
with an error — the transition table admits APPROVED to CANCELLED, the
`can_cancel` guard silently skips the action, and the call returns
successfully with the status unchanged. -/
theorem C9_counterexample :
    c9State.status = .APPROVED ∧ cancel_order c9State = .ok c9State := by
  exact ⟨by decide, by decide⟩

/-- The C9 witness state: a PENDING order. -/
def c9wState : LoanState :=
  { orderId := 1, status := .PENDING,
    issue_date := none, ship_date := none, return_date := none,
    lines := [⟨1, 1, 7, 10, 0, 0, 0, 0, .PENDING, none⟩],
    allocations := [], stocks := [],
    salesAllocations := [], conversions := [],
    nextAllocId := 1, nextSalesAllocId := 1, nextSalesLineId := 1,
    auto_complete := true }

/-- The state after cancelling the C9 witness order. -/
def c9wAfter : LoanState :=
  match cancel_order c9wState with
  | .ok s => s
  | .error _ => c9wState

theorem C9_witness :
    cancel_order c9wState = .ok c9wAfter ∧ c9wAfter.status = .CANCELLED := by
  refine ⟨by decide, ?_⟩
  rcases (C9_cancel_only_pending_on_hold c9wState c9wAfter).1 (by decide) with
    ⟨_, hc⟩ | ⟨hA, _⟩
  · exact hc
  · exact absurd hA (by decide)

end Loan
